import Mathlib

/-!
# MMC/SD low level disk control module (`Firmware/mmc.c`)

A shallow embedding of `mmc.c` (Petit FatFs disk layer for the ATtiny861) and
theorems about card initialisation, command dispatch and the partial sector
read.

Conventions of the embedding

* `BYTE`, `WORD` and `DWORD` values are natural numbers; a value is reduced
  modulo `2 ^ 8`, `2 ^ 16` or `2 ^ 32` wherever the C code stores it into a
  variable of that width.
* The bytes that `rcv_spi` returns are given by a stream `miso : Nat → Nat`
  and a read position `pos`; every call returns the next element (reduced to
  a byte) and advances the position.
* Everything that happens on the bus is appended to `trace`, oldest event
  first.
-/

namespace MMC

/-! ## Data model -/

/-- One observable action on the SPI bus. -/
inductive BusEvent where
  /-- `SELECT()`: chip select driven low. -/
  | select
  /-- `DESELECT()`: chip select driven high. -/
  | deselect
  /-- `xmit_spi(b)`. -/
  | xmit (b : Nat)
  /-- `rcv_spi()` returning `b`. -/
  | rcv (b : Nat)
  /-- `fwd_blk_part(dest, ofs, cnt)`. -/
  | fwd (dest ofs cnt : Nat)
  deriving DecidableEq, Repr

/-- Modelled from the spec: the constants of `diskio.h`, which is included by
`mmc.c` but is not among the sources. They are parameters of the embedding. -/
structure DiskHeader where
  STA_NOINIT : Nat
  CT_MMC : Nat
  CT_SD1 : Nat
  CT_SD2 : Nat
  CT_BLOCK : Nat
  deriving DecidableEq, Repr

/-- A byte with exactly one bit set. -/
def singleBit (x : Nat) : Prop := x ∈ [1, 2, 4, 8, 16, 32, 64, 128]

instance (x : Nat) : Decidable (singleBit x) := by
  unfold singleBit; infer_instance

/-- The assumption made on `diskio.h`: the card type flags are pairwise
distinct single bits of a byte and `STA_NOINIT` is a non-zero byte. -/
def DiskHeader.WF (K : DiskHeader) : Prop :=
  singleBit K.CT_MMC ∧ singleBit K.CT_SD1 ∧ singleBit K.CT_SD2 ∧ singleBit K.CT_BLOCK ∧
  K.CT_MMC ≠ K.CT_SD1 ∧ K.CT_MMC ≠ K.CT_SD2 ∧ K.CT_MMC ≠ K.CT_BLOCK ∧
  K.CT_SD1 ≠ K.CT_SD2 ∧ K.CT_SD1 ≠ K.CT_BLOCK ∧ K.CT_SD2 ≠ K.CT_BLOCK ∧
  0 < K.STA_NOINIT ∧ K.STA_NOINIT < 256

instance (K : DiskHeader) : Decidable K.WF := by
  unfold DiskHeader.WF; infer_instance

/-- The values of Petit FatFs. -/
def pff : DiskHeader :=
  { STA_NOINIT := 0x01, CT_MMC := 0x01, CT_SD1 := 0x02, CT_SD2 := 0x04, CT_BLOCK := 0x08 }

/-- Modelled from the spec: the result type `DRESULT` of `diskio.h`, of which
`mmc.c` uses the two values `RES_OK` and `RES_ERROR`. -/
inductive DRESULT where
  | RES_OK
  | RES_ERROR
  deriving DecidableEq, Repr

/-- The state the module works on: its global `CardType`, the I/O registers it
writes, and the bus. -/
structure Drive where
  /-- The global `BYTE CardType`. -/
  CardType : Nat
  /-- Port B; bit 0 is the chip select of the card (low = selected). -/
  PORTB : Nat
  USIPP : Nat
  USICR : Nat
  /-- The bytes `rcv_spi` returns, in order. -/
  miso : Nat → Nat
  /-- How many bytes of `miso` have been consumed. -/
  pos : Nat
  /-- The bus events so far, oldest first. -/
  trace : List BusEvent

/-! ## Commands -/

def CMD0 : Nat := 0x40 + 0
def CMD1 : Nat := 0x40 + 1
def ACMD41 : Nat := 0xC0 + 41
def CMD8 : Nat := 0x40 + 8
def CMD16 : Nat := 0x40 + 16
def CMD17 : Nat := 0x40 + 17
def CMD24 : Nat := 0x40 + 24
def CMD55 : Nat := 0x40 + 55
def CMD58 : Nat := 0x40 + 58

/-! ## Port control and SPI primitives -/

/-- `SELECT()`: `PORTB &= ~_BV(0)`. -/
def SELECT (s : Drive) : Drive :=
  { s with PORTB := s.PORTB &&& 0xFE, trace := s.trace ++ [BusEvent.select] }

/-- `DESELECT()`: `PORTB |= _BV(0)`. -/
def DESELECT (s : Drive) : Drive :=
  { s with PORTB := (s.PORTB ||| 0x01) % 256, trace := s.trace ++ [BusEvent.deselect] }

/-- The chip select line is asserted when bit 0 of port B is low. -/
def Drive.selected (s : Drive) : Bool := s.PORTB &&& 0x01 == 0

/-- Modelled from the spec: `xmit_spi` of `asmfunc.S`, which is not among the
sources. It clocks one byte out to the card. -/
def xmit_spi (b : Nat) (s : Drive) : Drive :=
  { s with trace := s.trace ++ [BusEvent.xmit (b % 256)] }

/-- Modelled from the spec: `rcv_spi` of `asmfunc.S`, which is not among the
sources. It returns the next byte the card sends. -/
def rcv_spi (s : Drive) : Nat × Drive :=
  (s.miso s.pos % 256,
   { s with pos := s.pos + 1, trace := s.trace ++ [BusEvent.rcv (s.miso s.pos % 256)] })

/-- Modelled from the spec: `fwd_blk_part` of `asmfunc.S`, which is not among
the sources. It consumes one sector of incoming bytes together with its two
trailing checksum bytes and copies the window `ofs .. ofs + cnt` of it to
`dest`. -/
def fwd_blk_part (dest ofs cnt : Nat) (s : Drive) : Drive :=
  { s with pos := s.pos + 514, trace := s.trace ++ [BusEvent.fwd dest ofs cnt] }

/-! ## Module private functions -/

/-- `release_spi`: deselect the card and release the SPI bus. -/
def release_spi (s : Drive) : Drive :=
  (rcv_spi (DESELECT s)).2

/-- The response loop of `send_cmd`:
`do res = rcv_spi(); while ((res & 0x80) && --n);` entered with counter `n`.
The counter is 10 on entry, so the value 0 is never passed in; for it the
definition reads one byte. -/
def recv_response : Nat → Drive → Nat × Drive
  | 0, s => rcv_spi s
  | n + 1, s =>
    let r := rcv_spi s
    if r.1 &&& 0x80 ≠ 0 ∧ n ≠ 0 then recv_response n r.2 else r

/-- Lines 72 to 95 of `send_cmd`: bracket, command packet, response. -/
def send_packet (cmd arg : Nat) (s : Drive) : Nat × Drive :=
  /- Select the card and wait for ready -/
  let s := DESELECT s
  let s := (rcv_spi s).2
  let s := SELECT s
  let s := (rcv_spi s).2
  /- Send command packet -/
  let s := xmit_spi cmd s
  let s := xmit_spi (arg >>> 24) s
  let s := xmit_spi (arg >>> 16) s
  let s := xmit_spi (arg >>> 8) s
  let s := xmit_spi arg s
  let n := 0x01
  let n := if cmd = CMD0 then 0x95 else n
  let n := if cmd = CMD8 then 0x87 else n
  let s := xmit_spi n s
  /- Receive command response -/
  recv_response 10 s

/-- The function `send_cmd`, with the depth of its recursion bounded by
`depth`: `none` when the bound is reached. -/
def send_cmd_depth : Nat → Nat → Nat → Drive → Option (Nat × Drive)
  | 0, _, _, _ => none
  | depth + 1, cmd, arg, s =>
    let cmd := cmd % 256
    if cmd &&& 0x80 ≠ 0 then
      /- ACMD<n> is the command sequence of CMD55-CMD<n> -/
      match send_cmd_depth depth CMD55 0 s with
      | none => none
      | some r => if r.1 > 1 then some r else some (send_packet (cmd &&& 0x7F) arg r.2)
    else some (send_packet cmd arg s)

/-- `send_cmd`: send a command packet to the card and return its response.
Two levels of recursion are all it ever uses (`send_cmd_depth_eq`). -/
def send_cmd (cmd arg : Nat) (s : Drive) : Nat × Drive :=
  match send_cmd_depth 2 cmd arg s with
  | some r => r
  | none => (0xFF, s)

/-! ## Public functions -/

/-- The loop `for (t = n; t; t--) rcv_spi();` of dummy clocks. -/
def dummy_clocks : Nat → Drive → Drive
  | 0, s => s
  | t + 1, s => dummy_clocks t (rcv_spi s).2

/-- The loop `for (n = 0; n < 4; n++) ocr[n] = rcv_spi();`: the four bytes
read and the state after them. -/
def rcv_ocr (s : Drive) : (Nat × Nat × Nat × Nat) × Drive :=
  let r0 := rcv_spi s
  let r1 := rcv_spi r0.2
  let r2 := rcv_spi r1.2
  let r3 := rcv_spi r2.2
  ((r0.1, r1.1, r2.1, r3.1), r3.2)

/-- The loop `for (t = n; t && send_cmd(cmd, arg); t--) ;` that waits for the
card to leave the idle state: the final value of `t` and the state. -/
def wait_ready (cmd arg : Nat) : Nat → Drive → Nat × Drive
  | 0, s => (0, s)
  | t + 1, s =>
    let r := send_cmd cmd arg s
    if r.1 ≠ 0 then wait_ready cmd arg t r.2 else (t + 1, r.2)

/-- Lines 117 to 122 of `disk_initialize`: enable the USI and clock the card. -/
def warm_up (s : Drive) : Drive :=
  let s := { s with USIPP := 0b00000001, USICR := 0b00001000 }
  let s := dummy_clocks 10 s
  let s := SELECT s
  dummy_clocks 600 s

/-- The SDv2 branch of `disk_initialize` (lines 127 to 134): the value of `ty`
and the state. -/
def init_sd2 (K : DiskHeader) (s : Drive) : Nat × Drive :=
  let o := rcv_ocr s
  if o.1.2.2.1 = 0x01 ∧ o.1.2.2.2 = 0xAA then
    let w := wait_ready ACMD41 (1 <<< 30) 25000 o.2
    if w.1 ≠ 0 then
      let r := send_cmd CMD58 0 w.2
      if r.1 = 0 then
        let o := rcv_ocr r.2
        (if o.1.1 &&& 0x40 ≠ 0 then (K.CT_SD2 ||| K.CT_BLOCK) % 256 else K.CT_SD2 % 256, o.2)
      else (0, r.2)
    else (0, w.2)
  else (0, o.2)

/-- The SDv1 or MMC branch of `disk_initialize` (lines 136 to 144): the value
of `ty` and the state. -/
def init_sd1_mmc (K : DiskHeader) (s : Drive) : Nat × Drive :=
  let p := send_cmd ACMD41 0 s
  let ty := if p.1 ≤ 1 then K.CT_SD1 % 256 else K.CT_MMC % 256
  let cmd := if p.1 ≤ 1 then ACMD41 else CMD1
  let w := wait_ready cmd 0 25000 p.2
  if w.1 = 0 then (0, w.2)
  else
    let r := send_cmd CMD16 512 w.2
    if r.1 ≠ 0 then (0, r.2) else (ty, r.2)

/-- Lines 124 to 146 of `disk_initialize`: the value of `ty` and the state. -/
def card_type (K : DiskHeader) (s : Drive) : Nat × Drive :=
  let r0 := send_cmd CMD0 0 s
  if r0.1 = 1 then
    let r8 := send_cmd CMD8 0x1AA r0.2
    if r8.1 = 1 then init_sd2 K r8.2 else init_sd1_mmc K r8.2
  else (0, r0.2)

/-- `disk_initialize`: the returned status and the state. -/
def disk_initialize (K : DiskHeader) (s : Drive) : Nat × Drive :=
  let c := card_type K (warm_up s)
  let ty := c.1
  let s := { c.2 with CardType := ty }
  let s := release_spi s
  (if ty ≠ 0 then 0 else K.STA_NOINIT % 256, s)

/-- The data token loop of `disk_readp`:
`do rc = rcv_spi(); while (rc == 0xFF && --t);` entered with counter `t`.
The counter is 30000 on entry, so the value 0 is never passed in; for it the
definition reads one byte. -/
def wait_token : Nat → Drive → Nat × Drive
  | 0, s => rcv_spi s
  | t + 1, s =>
    let r := rcv_spi s
    if r.1 = 0xFF ∧ t ≠ 0 then wait_token t r.2 else r

/-- `disk_readp`: read a partial sector. -/
def disk_readp (K : DiskHeader) (dest lba ofs cnt : Nat) (s : Drive) : DRESULT × Drive :=
  /- Convert LBA to BA if needed -/
  let lba := if s.CardType &&& K.CT_BLOCK = 0 then (lba * 512) % 2 ^ 32 else lba % 2 ^ 32
  let r := send_cmd CMD17 lba s
  let c :=
    if r.1 = 0 then
      let w := wait_token 30000 r.2
      if w.1 = 0xFE then (DRESULT.RES_OK, fwd_blk_part dest ofs cnt w.2)
      else (DRESULT.RES_ERROR, w.2)
    else (DRESULT.RES_ERROR, r.2)
  (c.1, release_spi c.2)

/-! ## Vocabulary of the statements -/

/-- The bytes sent with `xmit_spi` in a trace, in order. -/
def xmits : List BusEvent → List Nat
  | [] => []
  | BusEvent.xmit b :: t => b :: xmits t
  | _ :: t => xmits t

/-- The number of calls of `fwd_blk_part` in a trace. -/
def fwdCount : List BusEvent → Nat
  | [] => 0
  | BusEvent.fwd _ _ _ :: t => fwdCount t + 1
  | _ :: t => fwdCount t

/-- The state before poll number `k` (from 0) of the command `cmd`, when the
polls are sent one after the other from `s`. -/
def pollState (cmd arg : Nat) : Nat → Drive → Drive
  | 0, s => s
  | k + 1, s => pollState cmd arg k (send_cmd cmd arg s).2

/-- The response to poll number `k` (from 0). -/
def pollResp (cmd arg k : Nat) (s : Drive) : Nat :=
  (send_cmd cmd arg (pollState cmd arg k s)).1

/-- A drive whose card sends the bytes of `l` and `0xFF` after them. -/
def driveOf (l : List Nat) : Drive :=
  { CardType := 0, PORTB := 0, USIPP := 0, USICR := 0,
    miso := fun i => l.getD i 0xFF, pos := 0, trace := [] }

/-- One state continues another: same card, and the trace is extended. -/
def Continues (s s' : Drive) : Prop :=
  s'.miso = s.miso ∧ ∃ l, s'.trace = s.trace ++ l

/-- The trailing byte of the command packet. -/
def crcByte (cmd : Nat) : Nat :=
  if cmd = CMD8 then 0x87 else if cmd = CMD0 then 0x95 else 0x01

/-- The six bytes of the packet of `cmd` with argument `arg`. -/
def frame (cmd arg : Nat) : List Nat :=
  [cmd % 256, (arg >>> 24) % 256, (arg >>> 16) % 256, (arg >>> 8) % 256, arg % 256, crcByte cmd]

/-- The stream of a block addressed SDv2 card: idle after reset, echo of the
check pattern, ready at the third ACMD41, CCS set in the OCR. -/
def sdhcStream : List Nat :=
  List.replicate 610 0xFF ++ [0xFF, 0xFF, 0x01] ++ [0xFF, 0xFF, 0x01, 0x00, 0x00, 0x01, 0xAA] ++
    [0xFF, 0xFF, 0x01, 0xFF, 0xFF, 0x01] ++ [0xFF, 0xFF, 0x01, 0xFF, 0xFF, 0x01] ++
    [0xFF, 0xFF, 0x01, 0xFF, 0xFF, 0x00] ++ [0xFF, 0xFF, 0x00, 0x40, 0x00, 0x00, 0x00]

/-- The stream of an SDv2 card that answers CMD58 with "illegal command". -/
def noOcrStream : List Nat :=
  List.replicate 610 0xFF ++ [0xFF, 0xFF, 0x01] ++ [0xFF, 0xFF, 0x01, 0x00, 0x00, 0x01, 0xAA] ++
    [0xFF, 0xFF, 0x01, 0xFF, 0xFF, 0x00] ++ [0xFF, 0xFF, 0x04]

/-- The stream of an SDv1 card: CMD8 rejected with 0x05, ACMD41 accepted, ready
at the first poll, block length accepted. -/
def sd1Stream : List Nat :=
  List.replicate 610 0xFF ++ [0xFF, 0xFF, 0x01] ++ [0xFF, 0xFF, 0x05] ++
    [0xFF, 0xFF, 0x01, 0xFF, 0xFF, 0x01] ++ [0xFF, 0xFF, 0x01, 0xFF, 0xFF, 0x00] ++
    [0xFF, 0xFF, 0x00]

/-- The stream of `sd1Stream` with CMD16 answered by "parameter error". -/
def sd1BadLenStream : List Nat :=
  List.replicate 610 0xFF ++ [0xFF, 0xFF, 0x01] ++ [0xFF, 0xFF, 0x05] ++
    [0xFF, 0xFF, 0x01, 0xFF, 0xFF, 0x01] ++ [0xFF, 0xFF, 0x01, 0xFF, 0xFF, 0x00] ++
    [0xFF, 0xFF, 0x40]

/-- The argument of the CMD17 that `disk_readp` sends for block `lba` when the
card type is `ct` (line 171). -/
def readArg (K : DiskHeader) (ct lba : Nat) : Nat :=
  if ct &&& K.CT_BLOCK = 0 then (lba * 512) % 2 ^ 32 else lba % 2 ^ 32

/-- The value of four bytes read most significant byte first. -/
def be32 (a3 a2 a1 a0 : Nat) : Nat := ((a3 * 256 + a2) * 256 + a1) * 256 + a0

/-- Byte number `i` (from 0) that the card sends after state `s`. -/
def Drive.next (s : Drive) (i : Nat) : Nat := s.miso (s.pos + i) % 256

/-- A drive with a block addressed SDv2 card already classified. -/
def sdhcDrive (l : List Nat) : Drive :=
  { driveOf l with CardType := 0x0C }

/-- The events of `n` successive calls of `rcv_spi`, the first of which returns
byte number `i` after state `s`. -/
def rcvs (s : Drive) : Nat → Nat → List BusEvent
  | _, 0 => []
  | i, n + 1 => BusEvent.rcv (s.next i) :: rcvs s (i + 1) n

/-- The state `s` after `k` more bytes were received and the events `t` were
appended to the trace. -/
def advance (s : Drive) (k : Nat) (t : List BusEvent) : Drive :=
  { s with pos := s.pos + k, trace := s.trace ++ t }

/-- The events of one command packet that starts when the card is about to
send byte number `i` after `s`: bracket, six bytes, `k` reads of the response. -/
def packetEvents (s : Drive) (i cmd arg k : Nat) : List BusEvent :=
  [BusEvent.deselect, BusEvent.rcv (s.next i), BusEvent.select, BusEvent.rcv (s.next (i + 1))] ++
    (frame cmd arg).map BusEvent.xmit ++ rcvs s (i + 2) k

/-- The number of calls of `rcv_spi` in a trace. -/
def rcvCount : List BusEvent → Nat
  | [] => 0
  | BusEvent.rcv _ :: t => rcvCount t + 1
  | _ :: t => rcvCount t

/-- One step of the 7 bit CRC with generator x^7 + x^3 + 1: shift `bit` into
the register `crc`. -/
def crc7Bit (crc bit : Nat) : Nat :=
  if (crc >>> 6) % 2 ≠ bit % 2 then ((crc <<< 1) % 128) ^^^ 0x09 else (crc <<< 1) % 128

/-- The 7 bit CRC after the eight bits of the byte `b`, most significant bit
first. -/
def crc7Byte (crc b : Nat) : Nat :=
  [7, 6, 5, 4, 3, 2, 1, 0].foldl (fun c i => crc7Bit c (b >>> i)) crc

/-- The 7 bit CRC (generator x^7 + x^3 + 1, initial value 0) of a list of
bytes. -/
def crc7 (l : List Nat) : Nat := l.foldl crc7Byte 0

/-- The checksum byte of an SD command: the CRC7 of the first five bytes in
bits 7..1 and the end bit 1. -/
def sdChecksum (l : List Nat) : Nat := (crc7 l <<< 1) ||| 1

/-- The bytes of the packets of a list of commands with their arguments. -/
def framesOf : List (Nat × Nat) → List Nat
  | [] => []
  | c :: cs => frame c.1 c.2 ++ framesOf cs

/-- Between `s` and `s'` the bytes transmitted are the packets of a list of
commands that all satisfy `P`. -/
def Sends (P : Nat × Nat → Prop) (s s' : Drive) : Prop :=
  ∃ cs : List (Nat × Nat), xmits s'.trace = xmits s.trace ++ framesOf cs ∧ ∀ c ∈ cs, P c

/-- The commands that `disk_initialize` sends, as they appear in a packet, with
their arguments. -/
def initCommands : List (Nat × Nat) :=
  [(CMD0, 0), (CMD8, 0x1AA), (CMD55, 0), (ACMD41 &&& 0x7F, 1 <<< 30), (CMD58, 0),
    (ACMD41 &&& 0x7F, 0), (CMD1, 0), (CMD16, 512)]


/-- Lines 117 and 118 of `disk_initialize`: attach the USI to port A and enable
it. -/
def usi_enable (s : Drive) : Drive :=
  { s with USIPP := 0b00000001, USICR := 0b00001000 }

/-- The values `disk_initialize` can store in `CardType`. -/
def ValidType (K : DiskHeader) (ct : Nat) : Prop :=
  ct = 0 ∨ ct = K.CT_MMC ∨ ct = K.CT_SD1 ∨ ct = K.CT_SD2 ∨ ct = K.CT_SD2 ||| K.CT_BLOCK

/-- The states reached from a start with `CardType = 0` by calls of the two
public functions. -/
inductive Reachable (K : DiskHeader) : Drive → Prop where
  | start (s : Drive) (h : s.CardType = 0) : Reachable K s
  | init (s : Drive) (h : Reachable K s) : Reachable K ( disk_initialize K s).2
  | readp (dest lba ofs cnt : Nat) (s : Drive) (h : Reachable K s) :
      Reachable K ( disk_readp K dest lba ofs cnt s).2

/-! ## The primitives: what they leave alone and what they append -/

@[simp] theorem release_spi_CardType (s : Drive) : (release_spi s).CardType = s.CardType := rfl

@[simp] theorem release_spi_trace (s : Drive) :
    (release_spi s).trace =
      s.trace ++ [BusEvent.deselect, BusEvent.rcv (s.miso s.pos % 256)] := by
  simp [release_spi, rcv_spi, DESELECT]

theorem release_spi_selected (s : Drive) : (release_spi s).selected = false := by
  have h : ((s.PORTB ||| 1) % 256) % 2 = 1 := by
    rw [Nat.mod_mod_of_dvd _ (by decide : 2 ∣ 256)]
    have := Nat.testBit_or s.PORTB 1 0
    rw [Nat.testBit_zero, Nat.testBit_zero] at this
    simp
  simp [release_spi, rcv_spi, DESELECT, Drive.selected, Nat.and_one_is_mod, h]

theorem WF_STA_NOINIT {K : DiskHeader} (hK : K.WF) :
    K.STA_NOINIT % 256 = K.STA_NOINIT ∧ K.STA_NOINIT ≠ 0 := by
  obtain ⟨-, -, -, -, -, -, -, -, -, -, h0, h1⟩ := hK
  exact ⟨Nat.mod_eq_of_lt h1, Nat.pos_iff_ne_zero.mp h0⟩

/-! ### Bytes transmitted and sectors forwarded -/

@[simp] theorem xmits_append (a b : List BusEvent) : xmits (a ++ b) = xmits a ++ xmits b := by
  induction a with
  | nil => rfl
  | cons e t ih => cases e <;> simp [xmits, ih]

@[simp] theorem fwdCount_append (a b : List BusEvent) :
    fwdCount (a ++ b) = fwdCount a + fwdCount b := by
  induction a with
  | nil => simp [fwdCount]
  | cons e t ih => cases e <;> simp [fwdCount, ih]; omega

@[simp] theorem rcv_spi_trace (s : Drive) :
    (rcv_spi s).2.trace = s.trace ++ [BusEvent.rcv (s.miso s.pos % 256)] := rfl

@[simp] theorem rcv_spi_fst (s : Drive) : (rcv_spi s).1 = s.miso s.pos % 256 := rfl

@[simp] theorem rcv_spi_pos (s : Drive) : (rcv_spi s).2.pos = s.pos + 1 := rfl

@[simp] theorem rcv_spi_miso (s : Drive) : (rcv_spi s).2.miso = s.miso := rfl

@[simp] theorem rcv_spi_CardType (s : Drive) : (rcv_spi s).2.CardType = s.CardType := rfl

@[simp] theorem xmit_spi_trace (b : Nat) (s : Drive) :
    (xmit_spi b s).trace = s.trace ++ [BusEvent.xmit (b % 256)] := rfl

@[simp] theorem xmit_spi_pos (b : Nat) (s : Drive) : (xmit_spi b s).pos = s.pos := rfl

@[simp] theorem xmit_spi_miso (b : Nat) (s : Drive) : (xmit_spi b s).miso = s.miso := rfl

@[simp] theorem SELECT_trace (s : Drive) : (SELECT s).trace = s.trace ++ [BusEvent.select] := rfl

@[simp] theorem SELECT_pos (s : Drive) : (SELECT s).pos = s.pos := rfl

@[simp] theorem SELECT_miso (s : Drive) : (SELECT s).miso = s.miso := rfl

@[simp] theorem DESELECT_trace (s : Drive) :
    (DESELECT s).trace = s.trace ++ [BusEvent.deselect] := rfl

@[simp] theorem DESELECT_pos (s : Drive) : (DESELECT s).pos = s.pos := rfl

@[simp] theorem DESELECT_miso (s : Drive) : (DESELECT s).miso = s.miso := rfl

theorem Continues.refl (s : Drive) : Continues s s := ⟨rfl, [], by simp⟩

theorem Continues.trans {a b c : Drive} (h1 : Continues a b) (h2 : Continues b c) :
    Continues a c := by
  obtain ⟨m1, l1, e1⟩ := h1
  obtain ⟨m2, l2, e2⟩ := h2
  exact ⟨m2.trans m1, l1 ++ l2, by rw [e2, e1, List.append_assoc]⟩

theorem rcv_spi_continues (s : Drive) : Continues s (rcv_spi s).2 := ⟨rfl, _, rfl⟩

theorem xmit_spi_continues (b : Nat) (s : Drive) : Continues s (xmit_spi b s) := ⟨rfl, _, rfl⟩

theorem SELECT_continues (s : Drive) : Continues s (SELECT s) := ⟨rfl, _, rfl⟩

theorem DESELECT_continues (s : Drive) : Continues s (DESELECT s) := ⟨rfl, _, rfl⟩

theorem release_spi_continues (s : Drive) : Continues s (release_spi s) :=
  (DESELECT_continues s).trans (rcv_spi_continues _)

/-! ### The response loop -/

theorem recv_response_continues (n : Nat) (s : Drive) :
    Continues s (recv_response n s).2 := by
  induction n generalizing s with
  | zero => exact rcv_spi_continues s
  | succ n ih =>
    simp only [recv_response]
    split_ifs
    · exact (rcv_spi_continues s).trans (ih _)
    · exact rcv_spi_continues s

@[simp] theorem recv_response_xmits (n : Nat) (s : Drive) :
    xmits (recv_response n s).2.trace = xmits s.trace := by
  induction n generalizing s with
  | zero => simp [recv_response, xmits]
  | succ n ih =>
    simp only [recv_response]
    split_ifs
    · rw [ih]; simp [xmits]
    · simp [xmits]

@[simp] theorem recv_response_fwdCount (n : Nat) (s : Drive) :
    fwdCount (recv_response n s).2.trace = fwdCount s.trace := by
  induction n generalizing s with
  | zero => simp [recv_response, fwdCount]
  | succ n ih =>
    simp only [recv_response]
    split_ifs
    · rw [ih]; simp [fwdCount]
    · simp [fwdCount]

/-! ### `send_packet` and `send_cmd` -/

theorem send_packet_continues (cmd arg : Nat) (s : Drive) :
    Continues s (send_packet cmd arg s).2 := by
  simp only [send_packet]
  refine Continues.trans ?_ (recv_response_continues _ _)
  refine ⟨rfl, ?_⟩
  simp only [xmit_spi_trace, rcv_spi_trace, SELECT_trace, DESELECT_trace, List.append_assoc]
  exact ⟨_, rfl⟩

theorem send_packet_xmits (cmd arg : Nat) (s : Drive) :
    xmits (send_packet cmd arg s).2.trace = xmits s.trace ++ frame cmd arg := by
  simp only [send_packet, recv_response_xmits, xmit_spi_trace, rcv_spi_trace, SELECT_trace,
    DESELECT_trace, xmits_append, List.append_assoc]
  have hc : (if cmd = CMD8 then 0x87 else if cmd = CMD0 then 0x95 else 0x01) % 256
      = crcByte cmd := by
    unfold crcByte; split_ifs <;> rfl
  simp [xmits, frame, hc]

@[simp] theorem send_packet_fwdCount (cmd arg : Nat) (s : Drive) :
    fwdCount (send_packet cmd arg s).2.trace = fwdCount s.trace := by
  simp [send_packet, fwdCount]

theorem send_cmd_depth_plain (d cmd arg : Nat) (s : Drive) (h : cmd % 256 &&& 0x80 = 0) :
    send_cmd_depth (d + 1) cmd arg s = some (send_packet (cmd % 256) arg s) := by
  simp [send_cmd_depth, h]

theorem send_cmd_depth_app (d cmd arg : Nat) (s : Drive) (h : cmd % 256 &&& 0x80 ≠ 0) :
    send_cmd_depth (d + 2) cmd arg s =
      some (if (send_packet CMD55 0 s).1 > 1 then send_packet CMD55 0 s
        else send_packet (cmd % 256 &&& 0x7F) arg (send_packet CMD55 0 s).2) := by
  have h55 : CMD55 % 256 &&& 0x80 = 0 := by decide
  have h55m : CMD55 % 256 = CMD55 := by decide
  rw [send_cmd_depth]
  simp only [h, ne_eq, not_false_eq_true, if_true]
  rw [send_cmd_depth_plain d CMD55 0 s h55, h55m]
  simp only
  split_ifs <;> rfl

/-- Two levels always suffice: with any larger bound `send_cmd_depth` returns
the result of `send_cmd`. -/
theorem send_cmd_depth_eq (d cmd arg : Nat) (s : Drive) :
    send_cmd_depth (d + 2) cmd arg s = some (send_cmd cmd arg s) := by
  unfold send_cmd
  by_cases h : cmd % 256 &&& 0x80 = 0
  · rw [send_cmd_depth_plain (d + 1) cmd arg s h, send_cmd_depth_plain 1 cmd arg s h]
  · rw [send_cmd_depth_app d cmd arg s h, send_cmd_depth_app 0 cmd arg s h]

/-- The recursion of `send_cmd` unfolded: the nested call is the plain CMD55. -/
theorem send_cmd_eq (cmd arg : Nat) (s : Drive) :
    send_cmd cmd arg s =
      if cmd % 256 &&& 0x80 ≠ 0 then
        if (send_packet CMD55 0 s).1 > 1 then send_packet CMD55 0 s
        else send_packet (cmd % 256 &&& 0x7F) arg (send_packet CMD55 0 s).2
      else send_packet (cmd % 256) arg s := by
  unfold send_cmd
  by_cases h : cmd % 256 &&& 0x80 = 0
  · rw [send_cmd_depth_plain 1 cmd arg s h]; simp [h]
  · rw [send_cmd_depth_app 0 cmd arg s h]; simp [h]

/-- A command without bit 7 is sent as one packet. -/
theorem send_cmd_plain (cmd arg : Nat) (s : Drive) (h : cmd % 256 &&& 0x80 = 0) :
    send_cmd cmd arg s = send_packet (cmd % 256) arg s := by
  rw [send_cmd_eq]; simp [h]

theorem send_cmd_continues (cmd arg : Nat) (s : Drive) :
    Continues s (send_cmd cmd arg s).2 := by
  rw [send_cmd_eq]
  split_ifs
  · exact send_packet_continues _ _ _
  · exact (send_packet_continues _ _ _).trans (send_packet_continues _ _ _)
  · exact send_packet_continues _ _ _

@[simp] theorem send_cmd_fwdCount (cmd arg : Nat) (s : Drive) :
    fwdCount (send_cmd cmd arg s).2.trace = fwdCount s.trace := by
  rw [send_cmd_eq]
  split_ifs <;> simp

/-! ### The idle-exit loop -/

theorem pollResp_succ (cmd arg j : Nat) (s : Drive) :
    pollResp cmd arg (j + 1) s = pollResp cmd arg j (send_cmd cmd arg s).2 := rfl

/-- The loop stops at the first poll answered with 0, if there is one among the
first `n`. -/
theorem wait_ready_success (cmd arg : Nat) (n k : Nat) (s : Drive) (hk : k < n)
    (hfirst : ∀ j, j < k → pollResp cmd arg j s ≠ 0) (hz : pollResp cmd arg k s = 0) :
    wait_ready cmd arg n s = (n - k, pollState cmd arg (k + 1) s) := by
  induction n generalizing k s with
  | zero => omega
  | succ n ih =>
    cases k with
    | zero =>
      have h : (send_cmd cmd arg s).1 = 0 := hz
      simp [wait_ready, h, pollState]
    | succ k =>
      have h : (send_cmd cmd arg s).1 ≠ 0 := hfirst 0 (Nat.succ_pos k)
      have ih' := ih k (send_cmd cmd arg s).2 (by omega)
        (fun j hj => by rw [← pollResp_succ]; exact hfirst (j + 1) (by omega))
        (by rw [← pollResp_succ]; exact hz)
      simp only [wait_ready, h, ne_eq, not_false_eq_true, if_true, ih']
      rw [Nat.succ_sub_succ]
      rfl

/-- The loop runs out when none of the first `n` polls is answered with 0. -/
theorem wait_ready_timeout (cmd arg : Nat) (n : Nat) (s : Drive)
    (hall : ∀ j, j < n → pollResp cmd arg j s ≠ 0) :
    wait_ready cmd arg n s = (0, pollState cmd arg n s) := by
  induction n generalizing s with
  | zero => rfl
  | succ n ih =>
    have h : (send_cmd cmd arg s).1 ≠ 0 := hall 0 (Nat.succ_pos n)
    have ih' := ih (send_cmd cmd arg s).2
      (fun j hj => by rw [← pollResp_succ]; exact hall (j + 1) (by omega))
    simp only [wait_ready, h, ne_eq, not_false_eq_true, if_true, ih']
    rfl

/-- Either some poll among the first `n` is the first one answered with 0, or
none is. -/
theorem first_zero_or_none (cmd arg n : Nat) (s : Drive) :
    (∃ k, k < n ∧ (∀ j, j < k → pollResp cmd arg j s ≠ 0) ∧ pollResp cmd arg k s = 0) ∨
    (∀ j, j < n → pollResp cmd arg j s ≠ 0) := by
  by_cases h : ∃ k, k < n ∧ pollResp cmd arg k s = 0
  · left
    classical
    refine ⟨Nat.find h, (Nat.find_spec h).1, ?_, (Nat.find_spec h).2⟩
    intro j hj hz
    exact Nat.find_min h hj ⟨lt_trans hj (Nat.find_spec h).1, hz⟩
  · right
    intro j hj hz
    exact h ⟨j, hj, hz⟩

theorem pollState_continues (cmd arg k : Nat) (s : Drive) :
    Continues s (pollState cmd arg k s) := by
  induction k generalizing s with
  | zero => exact Continues.refl s
  | succ k ih => exact (send_cmd_continues cmd arg s).trans (ih _)

theorem wait_ready_continues (cmd arg n : Nat) (s : Drive) :
    Continues s (wait_ready cmd arg n s).2 := by
  induction n generalizing s with
  | zero => exact Continues.refl s
  | succ n ih =>
    simp only [wait_ready]
    split_ifs
    · exact (send_cmd_continues cmd arg s).trans (ih _)
    · exact send_cmd_continues cmd arg s

/-! ### The blocks of `disk_initialize` -/

theorem dummy_clocks_continues (n : Nat) (s : Drive) : Continues s (dummy_clocks n s) := by
  induction n generalizing s with
  | zero => exact Continues.refl s
  | succ n ih => exact (rcv_spi_continues s).trans (ih _)

@[simp] theorem dummy_clocks_xmits (n : Nat) (s : Drive) :
    xmits (dummy_clocks n s).trace = xmits s.trace := by
  induction n generalizing s with
  | zero => rfl
  | succ n ih => simp [dummy_clocks, ih, xmits]

theorem warm_up_continues (s : Drive) : Continues s (warm_up s) := by
  simp only [warm_up]
  refine Continues.trans ?_ (dummy_clocks_continues _ _)
  refine Continues.trans ?_ (SELECT_continues _)
  exact Continues.trans ⟨rfl, [], by simp⟩ (dummy_clocks_continues _ _)

@[simp] theorem warm_up_xmits (s : Drive) : xmits (warm_up s).trace = xmits s.trace := by
  simp only [warm_up, dummy_clocks_xmits, SELECT_trace, xmits_append]
  simp [xmits]

theorem rcv_ocr_continues (s : Drive) : Continues s (rcv_ocr s).2 := by
  simp only [rcv_ocr]
  exact (((rcv_spi_continues s).trans (rcv_spi_continues _)).trans
    (rcv_spi_continues _)).trans (rcv_spi_continues _)

theorem singleBit_byte {a : Nat} (ha : singleBit a) : a % 256 = a ∧ a ≠ 0 := by
  simp only [singleBit, List.mem_cons, List.mem_singleton, List.not_mem_nil, or_false] at ha
  rcases ha with h | h | h | h | h | h | h | h <;> subst h <;> decide

theorem singleBit_or {a b : Nat} (ha : singleBit a) (hb : singleBit b) (hne : a ≠ b) :
    (a ||| b) % 256 = a ||| b ∧ a ||| b ≠ 0 ∧ a ||| b ≠ a ∧ a &&& b = 0 ∧
      (a ||| b) &&& b ≠ 0 := by
  simp only [singleBit, List.mem_cons, List.mem_singleton, List.not_mem_nil, or_false] at ha hb
  rcases ha with h | h | h | h | h | h | h | h <;>
    rcases hb with h' | h' | h' | h' | h' | h' | h' | h' <;>
    subst h <;> subst h' <;> first | exact absurd rfl hne | decide

theorem WF_SD2 {K : DiskHeader} (hK : K.WF) :
    K.CT_SD2 % 256 = K.CT_SD2 ∧ K.CT_SD2 ≠ 0 ∧
    (K.CT_SD2 ||| K.CT_BLOCK) % 256 = K.CT_SD2 ||| K.CT_BLOCK ∧
    K.CT_SD2 ||| K.CT_BLOCK ≠ 0 ∧ K.CT_SD2 ||| K.CT_BLOCK ≠ K.CT_SD2 := by
  obtain ⟨-, -, h2, hb, -, -, -, -, -, hne, -, -⟩ := hK
  obtain ⟨e1, e2, e3, -, -⟩ := singleBit_or h2 hb hne
  exact ⟨(singleBit_byte h2).1, (singleBit_byte h2).2, e1, e2, e3⟩

/-- A pair is determined by a value of its first component. -/
theorem pair_of_fst {α β : Type} {p : α × β} {a : α} (h : p.1 = a) : p = (a, p.2) :=
  Prod.ext h rfl

/-- The SDv2 branch when the echo is right, poll number `k` is the first one
answered with 0 and CMD58 is answered with 0. -/
theorem init_sd2_ready (K : DiskHeader) (s2 s3 s4 s5 : Drive) (e0 e1 k b0 b1 b2 b3 : Nat)
    (hecho : rcv_ocr s2 = ((e0, e1, 0x01, 0xAA), s3))
    (hk : k < 25000)
    (hidle : ∀ j, j < k → pollResp ACMD41 (1 <<< 30) j s3 ≠ 0)
    (hready : pollResp ACMD41 (1 <<< 30) k s3 = 0)
    (h58 : send_cmd CMD58 0 (pollState ACMD41 (1 <<< 30) (k + 1) s3) = (0, s4))
    (hocr : rcv_ocr s4 = ((b0, b1, b2, b3), s5)) :
    init_sd2 K s2 =
      (if b0 &&& 0x40 ≠ 0 then (K.CT_SD2 ||| K.CT_BLOCK) % 256 else K.CT_SD2 % 256, s5) := by
  have hw := wait_ready_success ACMD41 (1 <<< 30) 25000 k s3 hk hidle hready
  have ht : 25000 - k ≠ 0 := by omega
  simp only [init_sd2, hecho, hw, h58, hocr, ht, and_self, ne_eq, not_false_eq_true, if_true]

/-- The status and the stored type, from the value of `ty`. -/
theorem disk_initialize_of_card_type (K : DiskHeader) (s c : Drive) (ty : Nat)
    (h : card_type K (warm_up s) = (ty, c)) :
    ( disk_initialize K s).2.CardType = ty ∧
      ( disk_initialize K s).1 = (if ty ≠ 0 then 0 else K.STA_NOINIT % 256) ∧
      ( disk_initialize K s).2.trace =
        c.trace ++ [BusEvent.deselect, BusEvent.rcv (c.miso c.pos % 256)] := by
  simp only [ disk_initialize, h, release_spi_CardType, release_spi_trace, and_self]

theorem WF_SD1_MMC {K : DiskHeader} (hK : K.WF) (p : Nat) :
    (if p ≤ 1 then K.CT_SD1 % 256 else K.CT_MMC % 256) =
        (if p ≤ 1 then K.CT_SD1 else K.CT_MMC) ∧
      (if p ≤ 1 then K.CT_SD1 else K.CT_MMC) ≠ 0 := by
  obtain ⟨hm, h1, -⟩ := hK
  split_ifs
  · exact singleBit_byte h1
  · exact singleBit_byte hm

/-- The first poll answered with 0 is unique. -/
theorem first_zero_unique (cmd arg : Nat) (s : Drive) (k k' : Nat)
    (hidle : ∀ j, j < k → pollResp cmd arg j s ≠ 0) (hready : pollResp cmd arg k s = 0)
    (hidle' : ∀ j, j < k' → pollResp cmd arg j s ≠ 0) (hready' : pollResp cmd arg k' s = 0) :
    k = k' := by
  rcases Nat.lt_trichotomy k k' with h | h | h
  · exact absurd hready (hidle' k h)
  · exact h
  · exact absurd hready' (hidle k' h)

/-- The SDv1 or MMC branch when poll number `k` is the first one answered with
0: the type is decided by the response to CMD16. -/
theorem init_sd1_mmc_polled (K : DiskHeader) (s2 s3 : Drive) (p k : Nat)
    (hp : send_cmd ACMD41 0 s2 = (p, s3)) (hk : k < 25000)
    (hidle : ∀ j, j < k → pollResp (if p ≤ 1 then ACMD41 else CMD1) 0 j s3 ≠ 0)
    (hready : pollResp (if p ≤ 1 then ACMD41 else CMD1) 0 k s3 = 0) :
    init_sd1_mmc K s2 =
      (if (send_cmd CMD16 512 (pollState (if p ≤ 1 then ACMD41 else CMD1) 0 (k + 1) s3)).1 ≠ 0
        then 0 else (if p ≤ 1 then K.CT_SD1 % 256 else K.CT_MMC % 256),
       (send_cmd CMD16 512 (pollState (if p ≤ 1 then ACMD41 else CMD1) 0 (k + 1) s3)).2) := by
  have hw := wait_ready_success _ 0 25000 k s3 hk hidle hready
  have ht : ¬ (25000 - k = 0) := by omega
  unfold init_sd1_mmc
  simp only [hp, hw]
  rw [if_neg ht]
  split_ifs <;> rfl

/-- The SDv1 or MMC branch when none of the 25000 polls is answered with 0. -/
theorem init_sd1_mmc_timeout (K : DiskHeader) (s2 s3 : Drive) (p : Nat)
    (hp : send_cmd ACMD41 0 s2 = (p, s3))
    (hnone : ∀ j, j < 25000 → pollResp (if p ≤ 1 then ACMD41 else CMD1) 0 j s3 ≠ 0) :
    (init_sd1_mmc K s2).1 = 0 := by
  have hw : (wait_ready (if p ≤ 1 then ACMD41 else CMD1) 0 25000 s3).1 = 0 :=
    congrArg Prod.fst (wait_ready_timeout _ 0 25000 s3 hnone)
  unfold init_sd1_mmc
  rw [hp]
  dsimp only
  rw [if_pos hw]

/-! ### The data token loop and the blocks of `disk_readp` -/

@[simp] theorem fwd_blk_part_trace (dest ofs cnt : Nat) (s : Drive) :
    (fwd_blk_part dest ofs cnt s).trace = s.trace ++ [BusEvent.fwd dest ofs cnt] := rfl

theorem fwd_blk_part_continues (dest ofs cnt : Nat) (s : Drive) :
    Continues s (fwd_blk_part dest ofs cnt s) := ⟨rfl, _, rfl⟩

theorem wait_token_continues (n : Nat) (s : Drive) : Continues s (wait_token n s).2 := by
  induction n generalizing s with
  | zero => exact rcv_spi_continues s
  | succ n ih =>
    simp only [wait_token]
    split_ifs
    · exact (rcv_spi_continues s).trans (ih _)
    · exact rcv_spi_continues s

@[simp] theorem wait_token_xmits (n : Nat) (s : Drive) :
    xmits (wait_token n s).2.trace = xmits s.trace := by
  induction n generalizing s with
  | zero => simp [wait_token, xmits]
  | succ n ih =>
    simp only [wait_token]
    split_ifs
    · rw [ih]; simp [xmits]
    · simp [xmits]

@[simp] theorem wait_token_fwdCount (n : Nat) (s : Drive) :
    fwdCount (wait_token n s).2.trace = fwdCount s.trace := by
  induction n generalizing s with
  | zero => simp [wait_token, fwdCount]
  | succ n ih =>
    simp only [wait_token]
    split_ifs
    · rw [ih]; simp [fwdCount]
    · simp [fwdCount]

/-- The last event of the token loop is the read of the byte it returns. -/
theorem wait_token_last (n : Nat) (s : Drive) :
    ∃ pre, (wait_token n s).2.trace = s.trace ++ pre ++ [BusEvent.rcv (wait_token n s).1] := by
  induction n generalizing s with
  | zero => exact ⟨[], by simp [wait_token]⟩
  | succ n ih =>
    simp only [wait_token]
    split_ifs
    · obtain ⟨pre, h⟩ := ih (rcv_spi s).2
      exact ⟨BusEvent.rcv (s.miso s.pos % 256) :: pre, by rw [h]; simp⟩
    · exact ⟨[], by simp⟩

theorem next_rcv_spi (s : Drive) (i : Nat) : (rcv_spi s).2.next i = s.next (i + 1) := by
  simp only [Drive.next, rcv_spi_miso, rcv_spi_pos]
  rw [Nat.add_assoc, Nat.add_comm 1 i]

theorem next_zero (s : Drive) : s.next 0 = s.miso s.pos % 256 := rfl

/-- The token loop returns 0xFE exactly when the first byte other than 0xFF
comes within the first `n` reads and is 0xFE. -/
theorem wait_token_eq_FE_iff (n : Nat) (hn : 0 < n) (s : Drive) :
    (wait_token n s).1 = 0xFE ↔
      ∃ j, j < n ∧ (∀ i, i < j → s.next i = 0xFF) ∧ s.next j = 0xFE := by
  induction n generalizing s with
  | zero => omega
  | succ n ih =>
    simp only [wait_token, rcv_spi_fst, ← next_zero]
    by_cases hcont : s.next 0 = 0xFF ∧ n ≠ 0
    · rw [if_pos hcont, ih (Nat.pos_of_ne_zero hcont.2)]
      constructor
      · rintro ⟨j, hj, hff, hfe⟩
        refine ⟨j + 1, by omega, ?_, by rw [← next_rcv_spi]; exact hfe⟩
        intro i hi
        cases i with
        | zero => exact hcont.1
        | succ i => rw [← next_rcv_spi]; exact hff i (by omega)
      · rintro ⟨j, hj, hff, hfe⟩
        cases j with
        | zero => rw [hcont.1] at hfe; omega
        | succ j =>
          refine ⟨j, by omega, ?_, by rw [next_rcv_spi]; exact hfe⟩
          intro i hi
          rw [next_rcv_spi]; exact hff (i + 1) (by omega)
    · rw [if_neg hcont]
      constructor
      · intro h
        exact ⟨0, by omega, fun i hi => absurd hi (Nat.not_lt_zero i), h⟩
      · rintro ⟨j, hj, hff, hfe⟩
        cases j with
        | zero => exact hfe
        | succ j =>
          have h0 : s.next 0 = 0xFF := hff 0 (Nat.succ_pos j)
          have hn0 : n = 0 := by
            by_contra hne
            exact hcont ⟨h0, hne⟩
          omega

/-- The argument bytes of a packet, read most significant byte first, give
back a 32 bit argument. -/
theorem be32_bytes (a : Nat) (ha : a < 2 ^ 32) :
    be32 ((a >>> 24) % 256) ((a >>> 16) % 256) ((a >>> 8) % 256) (a % 256) = a := by
  simp only [be32, Nat.shiftRight_eq_div_pow]
  omega

theorem readArg_lt (K : DiskHeader) (ct lba : Nat) : readArg K ct lba < 2 ^ 32 := by
  unfold readArg
  split_ifs <;> exact Nat.mod_lt _ (by decide)

/-- `disk_readp` in terms of the CMD17 response and the token loop. -/
theorem disk_readp_eq (K : DiskHeader) (dest lba ofs cnt : Nat) (s : Drive) :
    disk_readp K dest lba ofs cnt s =
      if (send_cmd CMD17 (readArg K s.CardType lba) s).1 = 0 then
        if (wait_token 30000 (send_cmd CMD17 (readArg K s.CardType lba) s).2).1 = 0xFE then
          (DRESULT.RES_OK, release_spi (fwd_blk_part dest ofs cnt
            (wait_token 30000 (send_cmd CMD17 (readArg K s.CardType lba) s).2).2))
        else
          (DRESULT.RES_ERROR,
            release_spi (wait_token 30000 (send_cmd CMD17 (readArg K s.CardType lba) s).2).2)
      else
        (DRESULT.RES_ERROR, release_spi (send_cmd CMD17 (readArg K s.CardType lba) s).2) := by
  unfold disk_readp readArg
  dsimp only
  split_ifs <;> rfl

theorem disk_readp_xmits (K : DiskHeader) (dest lba ofs cnt : Nat) (s : Drive) :
    xmits ( disk_readp K dest lba ofs cnt s).2.trace =
      xmits s.trace ++ frame CMD17 (readArg K s.CardType lba) := by
  have hx : xmits (send_cmd CMD17 (readArg K s.CardType lba) s).2.trace =
      xmits s.trace ++ frame CMD17 (readArg K s.CardType lba) := by
    rw [send_cmd_plain CMD17 _ s (by decide), send_packet_xmits]; rfl
  rw [disk_readp_eq]
  split_ifs <;> simp [hx, xmits]

theorem init_sd2_continues (K : DiskHeader) (s : Drive) : Continues s (init_sd2 K s).2 := by
  have h1 := rcv_ocr_continues s
  have h2 := h1.trans (wait_ready_continues ACMD41 (1 <<< 30) 25000 (rcv_ocr s).2)
  have h3 := h2.trans
    (send_cmd_continues CMD58 0 (wait_ready ACMD41 (1 <<< 30) 25000 (rcv_ocr s).2).2)
  have h4 := h3.trans (rcv_ocr_continues
    (send_cmd CMD58 0 (wait_ready ACMD41 (1 <<< 30) 25000 (rcv_ocr s).2).2).2)
  unfold init_sd2
  dsimp only
  generalize wait_ready ACMD41 (1 <<< 30) 25000 (rcv_ocr s).2 = w at h2 h3 h4 ⊢
  split_ifs <;> first | exact h4 | exact h3 | exact h2 | exact h1

theorem init_sd1_mmc_continues (K : DiskHeader) (s : Drive) :
    Continues s (init_sd1_mmc K s).2 := by
  have h1 := send_cmd_continues ACMD41 0 s
  have h2 := h1.trans (wait_ready_continues
    (if (send_cmd ACMD41 0 s).1 ≤ 1 then ACMD41 else CMD1) 0 25000 (send_cmd ACMD41 0 s).2)
  have h3 := h2.trans (send_cmd_continues CMD16 512 (wait_ready
    (if (send_cmd ACMD41 0 s).1 ≤ 1 then ACMD41 else CMD1) 0 25000 (send_cmd ACMD41 0 s).2).2)
  unfold init_sd1_mmc
  dsimp only
  generalize wait_ready (if (send_cmd ACMD41 0 s).1 ≤ 1 then ACMD41 else CMD1) 0 25000
    (send_cmd ACMD41 0 s).2 = w at h2 h3 ⊢
  split_ifs <;> first | exact h3 | exact h2

theorem card_type_continues (K : DiskHeader) (s : Drive) : Continues s (card_type K s).2 := by
  have h1 := send_cmd_continues CMD0 0 s
  have h2 := h1.trans (send_cmd_continues CMD8 0x1AA (send_cmd CMD0 0 s).2)
  unfold card_type
  dsimp only
  split_ifs
  · exact h2.trans (init_sd2_continues K _)
  · exact h2.trans (init_sd1_mmc_continues K _)
  · exact h1

/-! ## C1: status and stored classification -/

/-- C1. `disk_initialize` returns 0 (ready) exactly when the value it stores in
`CardType` is non-zero and returns `STA_NOINIT` otherwise, from every state and
for every stream of received bytes; a failed initialisation leaves
`CardType = 0` whatever it held before. -/
theorem disk_initialize_status_iff (K : DiskHeader) (hK : K.WF) (s : Drive) :
    (( disk_initialize K s).1 = 0 ↔ ( disk_initialize K s).2.CardType ≠ 0) ∧
    (( disk_initialize K s).1 ≠ 0 →
      ( disk_initialize K s).1 = K.STA_NOINIT ∧ ( disk_initialize K s).2.CardType = 0) := by
  obtain ⟨hm, hne⟩ := WF_STA_NOINIT hK
  simp only [ disk_initialize, release_spi_CardType, hm]
  generalize (card_type K (warm_up s)).1 = ty
  by_cases h : ty = 0
  · simp [h, hne]
  · simp [h]

/-- C1 at the card of `sdhcStream`. -/
theorem disk_initialize_status_iff_witness :
    pff.WF ∧
    ((( disk_initialize pff (driveOf sdhcStream)).1 = 0 ↔
        ( disk_initialize pff (driveOf sdhcStream)).2.CardType ≠ 0) ∧
      (( disk_initialize pff (driveOf sdhcStream)).1 ≠ 0 →
        ( disk_initialize pff (driveOf sdhcStream)).1 = pff.STA_NOINIT ∧
          ( disk_initialize pff (driveOf sdhcStream)).2.CardType = 0)) :=
  ⟨by decide, disk_initialize_status_iff pff (by decide) (driveOf sdhcStream)⟩

/-! ## C2: the SDv2 path -/

/-- C2. When CMD0 is answered with 1, CMD8 with 1, the echo read next has third
byte 0x01 and fourth byte 0xAA, poll number `k < 25000` of ACMD41 with HCS is
the first one answered with 0, and CMD58 is then answered with 0 and followed
by the OCR bytes `b0 .. b3`, the stored `CardType` is `CT_SD2 | CT_BLOCK` if bit
6 of `b0` is set and `CT_SD2` if it is clear, and the status is 0 (ready). -/
theorem disk_initialize_sd2_ready (K : DiskHeader) (hK : K.WF)
    (s s1 s2 s3 s4 s5 : Drive) (e0 e1 k b0 b1 b2 b3 : Nat)
    (h0 : send_cmd CMD0 0 (warm_up s) = (1, s1))
    (h8 : send_cmd CMD8 0x1AA s1 = (1, s2))
    (hecho : rcv_ocr s2 = ((e0, e1, 0x01, 0xAA), s3))
    (hk : k < 25000)
    (hidle : ∀ j, j < k → pollResp ACMD41 (1 <<< 30) j s3 ≠ 0)
    (hready : pollResp ACMD41 (1 <<< 30) k s3 = 0)
    (h58 : send_cmd CMD58 0 (pollState ACMD41 (1 <<< 30) (k + 1) s3) = (0, s4))
    (hocr : rcv_ocr s4 = ((b0, b1, b2, b3), s5)) :
    ( disk_initialize K s).2.CardType =
        (if b0 &&& 0x40 ≠ 0 then K.CT_SD2 ||| K.CT_BLOCK else K.CT_SD2) ∧
      ( disk_initialize K s).1 = 0 := by
  obtain ⟨m2, n2, m2b, n2b, -⟩ := WF_SD2 hK
  have hi := init_sd2_ready K s2 s3 s4 s5 e0 e1 k b0 b1 b2 b3 hecho hk hidle hready h58 hocr
  have hc : card_type K (warm_up s) =
      (if b0 &&& 0x40 ≠ 0 then K.CT_SD2 ||| K.CT_BLOCK else K.CT_SD2, s5) := by
    simp only [card_type, h0, h8, hi, if_true, m2, m2b]
  obtain ⟨h1, h2, -⟩ := disk_initialize_of_card_type K s s5 _ hc
  refine ⟨h1, ?_⟩
  rw [h2]
  split_ifs <;> simp_all

set_option maxRecDepth 1000000 in
/-- C2 at the card of `sdhcStream`: reset answered 1, interface check answered
1, echo 0x00 0x00 0x01 0xAA, ACMD41 answered 0 at the third try, first OCR byte
0x40. -/
theorem disk_initialize_sd2_ready_witness :
    ( disk_initialize pff (driveOf sdhcStream)).2.CardType = pff.CT_SD2 ||| pff.CT_BLOCK ∧
      ( disk_initialize pff (driveOf sdhcStream)).1 = 0 :=
  disk_initialize_sd2_ready pff (by decide) (driveOf sdhcStream) _ _ _ _ _ 0 0 2 0x40 0 0 0
    (pair_of_fst (by decide)) (pair_of_fst (by decide)) (pair_of_fst (by decide)) (by decide)
    (by decide) (by decide) (pair_of_fst (by decide)) (pair_of_fst (by decide))

/-! ## C3: when the SDv2 branch leaves the type empty -/

set_option maxRecDepth 1000000 in
/-- C3 fails as stated: at the card of `noOcrStream` CMD0 and CMD8 are answered
with 1, the echo is 0x00 0x00 0x01 0xAA and the first ACMD41 is answered with
0, but CMD58 is answered with 0x04, and the type stays empty. -/
theorem disk_initialize_sd2_cmd58_rejected :
    (send_cmd CMD0 0 (warm_up (driveOf noOcrStream))).1 = 1 ∧
    (send_cmd CMD8 0x1AA (send_cmd CMD0 0 (warm_up (driveOf noOcrStream))).2).1 = 1 ∧
    (rcv_ocr (send_cmd CMD8 0x1AA (send_cmd CMD0 0 (warm_up (driveOf noOcrStream))).2).2).1
      = (0x00, 0x00, 0x01, 0xAA) ∧
    pollResp ACMD41 (1 <<< 30) 0
      (rcv_ocr (send_cmd CMD8 0x1AA (send_cmd CMD0 0 (warm_up (driveOf noOcrStream))).2).2).2
      = 0 ∧
    ( disk_initialize pff (driveOf noOcrStream)).2.CardType = 0 ∧
    ( disk_initialize pff (driveOf noOcrStream)).1 = pff.STA_NOINIT ∧
    ( disk_initialize pff (driveOf noOcrStream)).1 ≠ 0 := by
  refine ⟨?_, ?_, ?_, ?_, ?_, ?_, ?_⟩ <;> decide

/-- C3, amended. On the SDv2 branch (CMD0 and CMD8 answered with 1): when the
echo has third byte 0x01 and fourth byte 0xAA, poll number `k < 25000` of ACMD41
with HCS is the first one answered with 0 and CMD58 is then answered with 0,
the four OCR bytes are read right after the CMD58 response, the stored
`CardType` is `CT_SD2` or `CT_SD2 | CT_BLOCK`, hence non-zero, and the status is
0; and the type stays empty only when the echo mismatched, all 25000 polls
were answered with a non-zero value, or CMD58 was answered with a non-zero
value. -/
theorem disk_initialize_sd2_empty_only_when (K : DiskHeader) (hK : K.WF)
    (s s1 s2 s3 : Drive) (e0 e1 e2 e3 : Nat)
    (h0 : send_cmd CMD0 0 (warm_up s) = (1, s1))
    (h8 : send_cmd CMD8 0x1AA s1 = (1, s2))
    (hecho : rcv_ocr s2 = ((e0, e1, e2, e3), s3)) :
    (∀ k s4, e2 = 0x01 → e3 = 0xAA → k < 25000 →
      (∀ j, j < k → pollResp ACMD41 (1 <<< 30) j s3 ≠ 0) →
      pollResp ACMD41 (1 <<< 30) k s3 = 0 →
      send_cmd CMD58 0 (pollState ACMD41 (1 <<< 30) (k + 1) s3) = (0, s4) →
      (( disk_initialize K s).2.CardType = K.CT_SD2 ∨
        ( disk_initialize K s).2.CardType = K.CT_SD2 ||| K.CT_BLOCK) ∧
      ( disk_initialize K s).2.CardType ≠ 0 ∧
      ( disk_initialize K s).1 = 0 ∧
      ∃ b0 b1 b2 b3 x, ( disk_initialize K s).2.trace =
        s4.trace ++ [BusEvent.rcv b0, BusEvent.rcv b1, BusEvent.rcv b2, BusEvent.rcv b3]
          ++ [BusEvent.deselect, BusEvent.rcv x]) ∧
    (( disk_initialize K s).2.CardType = 0 →
      ¬ (e2 = 0x01 ∧ e3 = 0xAA) ∨
      (∀ j, j < 25000 → pollResp ACMD41 (1 <<< 30) j s3 ≠ 0) ∨
      ∃ k, k < 25000 ∧ (∀ j, j < k → pollResp ACMD41 (1 <<< 30) j s3 ≠ 0) ∧
        pollResp ACMD41 (1 <<< 30) k s3 = 0 ∧
        (send_cmd CMD58 0 (pollState ACMD41 (1 <<< 30) (k + 1) s3)).1 ≠ 0) := by
  obtain ⟨m2, n2, m2b, n2b, -⟩ := WF_SD2 hK
  have key : ∀ k s4, e2 = 0x01 → e3 = 0xAA → k < 25000 →
      (∀ j, j < k → pollResp ACMD41 (1 <<< 30) j s3 ≠ 0) →
      pollResp ACMD41 (1 <<< 30) k s3 = 0 →
      send_cmd CMD58 0 (pollState ACMD41 (1 <<< 30) (k + 1) s3) = (0, s4) →
      card_type K (warm_up s) =
        (if (rcv_ocr s4).1.1 &&& 0x40 ≠ 0 then K.CT_SD2 ||| K.CT_BLOCK else K.CT_SD2,
          (rcv_ocr s4).2) := by
    intro k s4 he2 he3 hk hidle hready h58
    subst he2 he3
    have hi := init_sd2_ready K s2 s3 s4 (rcv_ocr s4).2 e0 e1 k (rcv_ocr s4).1.1
      (rcv_ocr s4).1.2.1 (rcv_ocr s4).1.2.2.1 (rcv_ocr s4).1.2.2.2 hecho hk hidle hready h58 rfl
    simp only [card_type, h0, h8, hi, if_true, m2, m2b]
  have val : ∀ b : Nat, (if b &&& 0x40 ≠ 0 then K.CT_SD2 ||| K.CT_BLOCK else K.CT_SD2) ≠ 0 := by
    intro b; split_ifs <;> assumption
  constructor
  · intro k s4 he2 he3 hk hidle hready h58
    obtain ⟨h1, h2, h3⟩ := disk_initialize_of_card_type K s _ _
      (key k s4 he2 he3 hk hidle hready h58)
    refine ⟨?_, ?_, ?_, ?_⟩
    · rw [h1]; split_ifs
      · exact Or.inr rfl
      · exact Or.inl rfl
    · rw [h1]; exact val _
    · rw [h2, if_pos (val _)]
    · refine ⟨s4.miso s4.pos % 256, s4.miso (s4.pos + 1) % 256,
        s4.miso (s4.pos + 1 + 1) % 256, s4.miso (s4.pos + 1 + 1 + 1) % 256,
        s4.miso (s4.pos + 1 + 1 + 1 + 1) % 256, ?_⟩
      rw [h3]; simp [rcv_ocr]
  · intro hz
    by_cases he : e2 = 0x01 ∧ e3 = 0xAA
    · right
      rcases first_zero_or_none ACMD41 (1 <<< 30) 25000 s3 with ⟨k, hk, hidle, hready⟩ | hnone
      · right
        refine ⟨k, hk, hidle, hready, ?_⟩
        intro h58
        obtain ⟨h1, -, -⟩ := disk_initialize_of_card_type K s _ _
          (key k _ he.1 he.2 hk hidle hready (pair_of_fst h58))
        rw [h1] at hz
        exact val _ hz
      · exact Or.inl hnone
    · exact Or.inl he

set_option maxRecDepth 1000000 in
/-- C3 (amended) at the card of `sdhcStream`. -/
theorem disk_initialize_sd2_empty_only_when_witness :
    (( disk_initialize pff (driveOf sdhcStream)).2.CardType = pff.CT_SD2 ∨
      ( disk_initialize pff (driveOf sdhcStream)).2.CardType = pff.CT_SD2 ||| pff.CT_BLOCK) ∧
    ( disk_initialize pff (driveOf sdhcStream)).2.CardType ≠ 0 ∧
    ( disk_initialize pff (driveOf sdhcStream)).1 = 0 ∧
    ∃ b0 b1 b2 b3 x, ( disk_initialize pff (driveOf sdhcStream)).2.trace =
      (send_cmd CMD58 0 (pollState ACMD41 (1 <<< 30) 3 (rcv_ocr (send_cmd CMD8 0x1AA
        (send_cmd CMD0 0 (warm_up (driveOf sdhcStream))).2).2).2)).2.trace
        ++ [BusEvent.rcv b0, BusEvent.rcv b1, BusEvent.rcv b2, BusEvent.rcv b3]
        ++ [BusEvent.deselect, BusEvent.rcv x] :=
  (disk_initialize_sd2_empty_only_when pff (by decide) (driveOf sdhcStream) _ _ _ 0 0 0x01 0xAA
    (pair_of_fst (by decide)) (pair_of_fst (by decide)) (pair_of_fst (by decide))).1
    2 _ rfl rfl (by decide) (by decide) (by decide) (pair_of_fst (by decide))

/-! ## C4: the SDv1 or MMC path -/

/-- C4. When CMD0 is answered with 1 and CMD8 with a value other than 1, let
`p` be the response to the probe ACMD41(0); the provisional type is `CT_SD1`
with polling command ACMD41 if `p ≤ 1`, and `CT_MMC` with polling command CMD1
otherwise. The stored `CardType` is the provisional type and the status is 0
exactly when some poll among the first 25000 is the first one answered with 0
and the CMD16(512) that follows it is answered with 0; in every other case
`CardType` is 0 and the status is `STA_NOINIT`. -/
theorem disk_initialize_sd1_mmc (K : DiskHeader) (hK : K.WF)
    (s s1 s2 s3 : Drive) (r8 p : Nat)
    (h0 : send_cmd CMD0 0 (warm_up s) = (1, s1))
    (h8 : send_cmd CMD8 0x1AA s1 = (r8, s2)) (hr8 : r8 ≠ 1)
    (hp : send_cmd ACMD41 0 s2 = (p, s3)) :
    ((( disk_initialize K s).2.CardType = (if p ≤ 1 then K.CT_SD1 else K.CT_MMC) ∧
        ( disk_initialize K s).1 = 0) ↔
      ∃ k, k < 25000 ∧
        (∀ j, j < k → pollResp (if p ≤ 1 then ACMD41 else CMD1) 0 j s3 ≠ 0) ∧
        pollResp (if p ≤ 1 then ACMD41 else CMD1) 0 k s3 = 0 ∧
        (send_cmd CMD16 512 (pollState (if p ≤ 1 then ACMD41 else CMD1) 0 (k + 1) s3)).1 = 0) ∧
    ((( disk_initialize K s).2.CardType = (if p ≤ 1 then K.CT_SD1 else K.CT_MMC) ∧
        ( disk_initialize K s).1 = 0) ∨
      (( disk_initialize K s).2.CardType = 0 ∧ ( disk_initialize K s).1 = K.STA_NOINIT)) := by
  obtain ⟨hm, hne⟩ := WF_STA_NOINIT hK
  obtain ⟨tm, tne⟩ := WF_SD1_MMC hK p
  have hct : card_type K (warm_up s) = init_sd1_mmc K s2 := by
    simp only [card_type, h0, h8, hr8, if_true, if_false]
  rcases first_zero_or_none (if p ≤ 1 then ACMD41 else CMD1) 0 25000 s3 with
    ⟨k, hk, hidle, hready⟩ | hnone
  · have hi := init_sd1_mmc_polled K s2 s3 p k hp hk hidle hready
    rw [← hct, tm] at hi
    obtain ⟨c1, c2, -⟩ := disk_initialize_of_card_type K s _ _ hi
    by_cases h16 :
      (send_cmd CMD16 512 (pollState (if p ≤ 1 then ACMD41 else CMD1) 0 (k + 1) s3)).1 = 0
    · simp only [h16, ne_eq, not_true_eq_false, if_false] at c1 c2
      rw [if_pos tne] at c2
      exact ⟨⟨fun _ => ⟨k, hk, hidle, hready, h16⟩, fun _ => ⟨c1, c2⟩⟩, Or.inl ⟨c1, c2⟩⟩
    · simp only [h16, ne_eq, not_false_eq_true, if_true, not_true_eq_false, if_false, hm]
        at c1 c2
      refine ⟨⟨fun h => absurd (c2.symm.trans h.2) hne, ?_⟩, Or.inr ⟨c1, c2⟩⟩
      rintro ⟨k', -, hidle', hready', h16'⟩
      have := first_zero_unique _ 0 s3 k k' hidle hready hidle' hready'
      subst this
      exact absurd h16' h16
  · have hi := init_sd1_mmc_timeout K s2 s3 p hp hnone
    rw [← hct] at hi
    obtain ⟨c1, c2, -⟩ := disk_initialize_of_card_type K s _ _ (pair_of_fst hi)
    simp only [ne_eq, not_true_eq_false, if_false, hm] at c2
    refine ⟨⟨fun h => absurd (c2.symm.trans h.2) hne, ?_⟩, Or.inr ⟨c1, c2⟩⟩
    rintro ⟨k', hk', -, hready', -⟩
    exact absurd hready' (hnone k' hk')

set_option maxRecDepth 1000000 in
/-- C4 at two cards: with CMD8 answered 5, ACMD41 answered 1, the first poll
answered 0 and CMD16 answered 0 the type is `CT_SD1` and the drive is ready;
the same with CMD16 answered non-zero leaves the type empty and the drive not
initialised. -/
theorem disk_initialize_sd1_mmc_witness :
    (( disk_initialize pff (driveOf sd1Stream)).2.CardType = pff.CT_SD1 ∧
      ( disk_initialize pff (driveOf sd1Stream)).1 = 0) ∧
    (( disk_initialize pff (driveOf sd1BadLenStream)).2.CardType = 0 ∧
      ( disk_initialize pff (driveOf sd1BadLenStream)).1 = pff.STA_NOINIT) := by
  constructor
  · exact (disk_initialize_sd1_mmc pff (by decide) (driveOf sd1Stream) _ _ _ 5 1
      (pair_of_fst (by decide)) (pair_of_fst (by decide)) (by decide)
      (pair_of_fst (by decide))).1.mpr
      ⟨0, by decide, by decide, by decide, by decide⟩
  · have h := disk_initialize_sd1_mmc pff (by decide) (driveOf sd1BadLenStream) _ _ _ 5 1
      (pair_of_fst (by decide)) (pair_of_fst (by decide)) (by decide)
      (pair_of_fst (by decide))
    refine h.2.resolve_left (fun hl => ?_)
    obtain ⟨k, -, hidle, -, h16⟩ := h.1.mp hl
    cases k with
    | zero => exact absurd h16 (by decide)
    | succ k => exact hidle 0 (Nat.succ_pos k) (by decide)

/-! ## C5: reset failure -/

/-- C5. When CMD0 is answered with a value other than 1, `disk_initialize`
stores `CardType = 0` and returns `STA_NOINIT`; after the CMD0 response the
only bus activity is the release (deselect, one byte received), and the bytes
transmitted during the whole call are the six bytes of the CMD0 packet. -/
theorem disk_initialize_reset_failed (K : DiskHeader) (hK : K.WF) (s s1 : Drive) (r0 : Nat)
    (h0 : send_cmd CMD0 0 (warm_up s) = (r0, s1)) (hr : r0 ≠ 1) :
    ( disk_initialize K s).2.CardType = 0 ∧
    ( disk_initialize K s).1 = K.STA_NOINIT ∧
    ( disk_initialize K s).2.trace =
      s1.trace ++ [BusEvent.deselect, BusEvent.rcv (s1.miso s1.pos % 256)] ∧
    xmits ( disk_initialize K s).2.trace = xmits s.trace ++ [0x40, 0x00, 0x00, 0x00, 0x00, 0x95] := by
  obtain ⟨hm, -⟩ := WF_STA_NOINIT hK
  have hct : card_type K (warm_up s) = (0, s1) := by
    simp only [card_type, h0, hr, if_false]
  obtain ⟨c1, c2, c3⟩ := disk_initialize_of_card_type K s s1 0 hct
  refine ⟨c1, ?_, c3, ?_⟩
  · rw [c2, hm]; rfl
  · have hs1 : s1 = (send_cmd CMD0 0 (warm_up s)).2 := by rw [h0]
    have hf : frame (CMD0 % 256) 0 = [0x40, 0x00, 0x00, 0x00, 0x00, 0x95] := by decide
    rw [c3, hs1, send_cmd_plain CMD0 0 _ (by decide), xmits_append, send_packet_xmits,
      warm_up_xmits, hf]
    simp [xmits]

set_option maxRecDepth 1000000 in
/-- C5 at an empty socket, where every byte received is 0xFF. -/
theorem disk_initialize_reset_failed_witness :
    ( disk_initialize pff (driveOf [])).2.CardType = 0 ∧
    ( disk_initialize pff (driveOf [])).1 = pff.STA_NOINIT ∧
    ( disk_initialize pff (driveOf [])).2.trace =
      (send_cmd CMD0 0 (warm_up (driveOf []))).2.trace ++
        [BusEvent.deselect, BusEvent.rcv 0xFF] ∧
    xmits ( disk_initialize pff (driveOf [])).2.trace = [0x40, 0x00, 0x00, 0x00, 0x00, 0x95] :=
  disk_initialize_reset_failed pff (by decide) (driveOf []) _ 0xFF
    (pair_of_fst (by decide)) (by decide)

/-! ## C6: the address of the read command -/

/-- C6 fails as stated: for the 32 bit block number 8388608 and a card type
without `CT_BLOCK` the argument bytes of the CMD17 packet are all 0, which is
not 8388608 * 512. -/
theorem readp_wraps_at_8388608 :
    (driveOf []).CardType &&& pff.CT_BLOCK = 0 ∧ 8388608 < 2 ^ 32 ∧
    xmits ( disk_readp pff 0 8388608 0 512 (driveOf [])).2.trace =
      [0x51, 0x00, 0x00, 0x00, 0x00, 0x01] ∧
    be32 0x00 0x00 0x00 0x00 ≠ 8388608 * 512 := by
  refine ⟨?_, ?_, ?_, ?_⟩ <;> decide

/-- C6, amended. For every 32 bit block number `lba` and every `CardType`,
`disk_readp` transmits exactly the six bytes of one CMD17 packet, and its four
argument bytes, read most significant byte first, encode `lba * 512` modulo
`2 ^ 32` when `CardType` has no `CT_BLOCK` flag (which is `lba * 512` itself
when `lba < 2 ^ 23`), and `lba` unchanged when it has the flag. -/
theorem disk_readp_address (K : DiskHeader) (dest lba ofs cnt : Nat) (s : Drive)
    (hl : lba < 2 ^ 32) :
    xmits ( disk_readp K dest lba ofs cnt s).2.trace =
      xmits s.trace ++
        [0x51, (readArg K s.CardType lba >>> 24) % 256, (readArg K s.CardType lba >>> 16) % 256,
          (readArg K s.CardType lba >>> 8) % 256, readArg K s.CardType lba % 256, 0x01] ∧
    (s.CardType &&& K.CT_BLOCK = 0 →
      be32 ((readArg K s.CardType lba >>> 24) % 256) ((readArg K s.CardType lba >>> 16) % 256)
        ((readArg K s.CardType lba >>> 8) % 256) (readArg K s.CardType lba % 256)
        = (lba * 512) % 2 ^ 32) ∧
    (s.CardType &&& K.CT_BLOCK = 0 → lba < 2 ^ 23 →
      be32 ((readArg K s.CardType lba >>> 24) % 256) ((readArg K s.CardType lba >>> 16) % 256)
        ((readArg K s.CardType lba >>> 8) % 256) (readArg K s.CardType lba % 256)
        = lba * 512) ∧
    (s.CardType &&& K.CT_BLOCK ≠ 0 →
      be32 ((readArg K s.CardType lba >>> 24) % 256) ((readArg K s.CardType lba >>> 16) % 256)
        ((readArg K s.CardType lba >>> 8) % 256) (readArg K s.CardType lba % 256)
        = lba) := by
  rw [be32_bytes _ (readArg_lt K s.CardType lba)]
  refine ⟨?_, ?_, ?_, ?_⟩
  · rw [disk_readp_xmits]; rfl
  · intro h; simp [readArg, h]
  · intro h h23
    simp only [readArg, h, if_true]
    exact Nat.mod_eq_of_lt (by omega)
  · intro h
    simp only [readArg, h, if_false]
    exact Nat.mod_eq_of_lt hl

/-- C6 (amended) at block number 10: the argument is 5120 (bytes 0x00 0x00 0x14
0x00) without the flag and 10 (bytes 0x00 0x00 0x00 0x0A) with it. -/
theorem disk_readp_address_witness :
    (xmits ( disk_readp pff 0 10 0 512 (driveOf [])).2.trace =
        [0x51, 0x00, 0x00, 0x14, 0x00, 0x01] ∧
      be32 0x00 0x00 0x14 0x00 = 10 * 512) ∧
    (xmits ( disk_readp pff 0 10 0 512 (sdhcDrive [])).2.trace =
        [0x51, 0x00, 0x00, 0x00, 0x0A, 0x01] ∧
      be32 0x00 0x00 0x00 0x0A = 10) :=
  ⟨⟨(disk_readp_address pff 0 10 0 512 (driveOf []) (by decide)).1,
    (disk_readp_address pff 0 10 0 512 (driveOf []) (by decide)).2.2.1 (by decide) (by decide)⟩,
   ⟨(disk_readp_address pff 0 10 0 512 (sdhcDrive []) (by decide)).1,
    (disk_readp_address pff 0 10 0 512 (sdhcDrive []) (by decide)).2.2.2 (by decide)⟩⟩

/-! ## C7: the result of the read -/

/-- C7. `disk_readp` returns `RES_OK` exactly when CMD17 was answered with 0
and, among the bytes received after that response, the first one other than
0xFF comes within the first 30000 reads and is 0xFE; otherwise it returns
`RES_ERROR`. So 30000 bytes 0xFF give `RES_ERROR` whatever follows, a first byte
other than 0xFF and 0xFE gives `RES_ERROR`, and 0xFE at the first read gives
`RES_OK`. -/
theorem disk_readp_result (K : DiskHeader) (dest lba ofs cnt : Nat) (s s1 : Drive) (r : Nat)
    (hc : send_cmd CMD17 (readArg K s.CardType lba) s = (r, s1)) :
    (( disk_readp K dest lba ofs cnt s).1 = DRESULT.RES_OK ↔
      r = 0 ∧ ∃ j, j < 30000 ∧ (∀ i, i < j → s1.next i = 0xFF) ∧ s1.next j = 0xFE) ∧
    (( disk_readp K dest lba ofs cnt s).1 ≠ DRESULT.RES_OK →
      ( disk_readp K dest lba ofs cnt s).1 = DRESULT.RES_ERROR) ∧
    ((∀ i, i < 30000 → s1.next i = 0xFF) →
      ( disk_readp K dest lba ofs cnt s).1 = DRESULT.RES_ERROR) ∧
    (∀ j, j < 30000 → (∀ i, i < j → s1.next i = 0xFF) → s1.next j ≠ 0xFF → s1.next j ≠ 0xFE →
      ( disk_readp K dest lba ofs cnt s).1 = DRESULT.RES_ERROR) ∧
    (r = 0 → s1.next 0 = 0xFE → ( disk_readp K dest lba ofs cnt s).1 = DRESULT.RES_OK) := by
  have hiff : ( disk_readp K dest lba ofs cnt s).1 = DRESULT.RES_OK ↔
      r = 0 ∧ ∃ j, j < 30000 ∧ (∀ i, i < j → s1.next i = 0xFF) ∧ s1.next j = 0xFE := by
    rw [← wait_token_eq_FE_iff 30000 (by decide) s1, disk_readp_eq, hc]
    by_cases hr : r = 0
    · by_cases ht : (wait_token 30000 s1).1 = 0xFE
      · simp [hr, ht]
      · simp [hr, ht]
    · simp [hr]
  have herr : ∀ x : DRESULT, x ≠ DRESULT.RES_OK → x = DRESULT.RES_ERROR := by
    intro x hx; cases x
    · exact absurd rfl hx
    · rfl
  refine ⟨hiff, herr _, ?_, ?_, ?_⟩
  · intro hall
    apply herr
    intro hok
    obtain ⟨-, j, hj, -, hfe⟩ := hiff.mp hok
    rw [hall j hj] at hfe
    omega
  · intro j hj hff hnff hnfe
    apply herr
    intro hok
    obtain ⟨-, j', -, hff', hfe'⟩ := hiff.mp hok
    rcases Nat.lt_trichotomy j j' with h | h | h
    · exact hnff (hff' j h)
    · subst h; exact hnfe hfe'
    · rw [hff j' h] at hfe'; omega
  · intro hr h0
    rw [hiff]
    exact ⟨hr, 0, by decide, fun i hi => absurd hi (Nat.not_lt_zero i), h0⟩

/-- C7 at two cards: CMD17 answered 0 and the token 0xFE after two bytes 0xFF
gives `RES_OK`; CMD17 answered 0 and the error token 0x09 after one byte 0xFF
gives `RES_ERROR`. -/
theorem disk_readp_result_witness :
    ( disk_readp pff 0 10 0 512 (driveOf [0xFF, 0xFF, 0x00, 0xFF, 0xFF, 0xFE])).1
      = DRESULT.RES_OK ∧
    ( disk_readp pff 0 10 0 512 (driveOf [0xFF, 0xFF, 0x00, 0xFF, 0x09])).1
      = DRESULT.RES_ERROR :=
  ⟨(disk_readp_result pff 0 10 0 512 (driveOf [0xFF, 0xFF, 0x00, 0xFF, 0xFF, 0xFE]) _ 0
      (pair_of_fst (by decide))).1.mpr ⟨rfl, 2, by decide, by decide, by decide⟩,
   (disk_readp_result pff 0 10 0 512 (driveOf [0xFF, 0xFF, 0x00, 0xFF, 0x09]) _ 0
      (pair_of_fst (by decide))).2.2.2.1 1 (by decide) (by decide) (by decide) (by decide)⟩

/-! ## C8: delegation of the copy -/

/-- C8. `disk_readp` calls `fwd_blk_part` exactly once when it returns `RES_OK`
and not at all when it returns `RES_ERROR`; the call has the caller's `dest`,
`ofs` and `cnt` and comes right after the read of the token 0xFE and right
before the release of the bus; and when CMD17 is answered with a non-zero
value nothing is read between the response and the release. -/
theorem disk_readp_forward (K : DiskHeader) (dest lba ofs cnt : Nat) (s : Drive) :
    fwdCount ( disk_readp K dest lba ofs cnt s).2.trace =
      fwdCount s.trace + (if ( disk_readp K dest lba ofs cnt s).1 = DRESULT.RES_OK then 1 else 0) ∧
    (( disk_readp K dest lba ofs cnt s).1 = DRESULT.RES_OK →
      ∃ pre b, ( disk_readp K dest lba ofs cnt s).2.trace =
        s.trace ++ pre ++
          [BusEvent.rcv 0xFE, BusEvent.fwd dest ofs cnt, BusEvent.deselect, BusEvent.rcv b]) ∧
    ((send_cmd CMD17 (readArg K s.CardType lba) s).1 ≠ 0 →
      ∃ b, ( disk_readp K dest lba ofs cnt s).2.trace =
        (send_cmd CMD17 (readArg K s.CardType lba) s).2.trace ++
          [BusEvent.deselect, BusEvent.rcv b]) := by
  rw [disk_readp_eq]
  by_cases hr : (send_cmd CMD17 (readArg K s.CardType lba) s).1 = 0
  · by_cases ht : (wait_token 30000 (send_cmd CMD17 (readArg K s.CardType lba) s).2).1 = 0xFE
    · simp only [hr, ht, if_true, ne_eq, not_true_eq_false, false_implies, and_true,
        release_spi_trace, fwd_blk_part_trace, fwdCount_append, wait_token_fwdCount,
        send_cmd_fwdCount, true_implies]
      refine ⟨by simp [fwdCount], ?_⟩
      obtain ⟨-, l, hl⟩ := send_cmd_continues CMD17 (readArg K s.CardType lba) s
      obtain ⟨pre, hp⟩ := wait_token_last 30000 (send_cmd CMD17 (readArg K s.CardType lba) s).2
      rw [ht, hl] at hp
      exact ⟨l ++ pre, _, by
        rw [hp]
        simp only [List.append_assoc, List.cons_append, List.nil_append]
        rfl⟩
    · simp only [hr, ht, if_true, if_false, ne_eq, not_true_eq_false, false_implies, and_true,
        release_spi_trace, fwdCount_append, wait_token_fwdCount, send_cmd_fwdCount]
      simp [fwdCount]
  · simp only [hr, if_false, ne_eq, not_false_eq_true, true_implies, release_spi_trace,
      fwdCount_append, send_cmd_fwdCount]
    exact ⟨by simp [fwdCount], by simp, ⟨_, rfl⟩⟩

/-! ## C9: the bus is released -/

/-- C9. The trace of `disk_initialize` and the trace of `disk_readp` extend the
trace before the call and end with a deselect followed by one received byte,
and the chip select is deasserted in the state they return, from every state,
for every stream and all arguments. -/
theorem bus_released (K : DiskHeader) (dest lba ofs cnt : Nat) (s : Drive) :
    (∃ mid b, ( disk_initialize K s).2.trace =
      s.trace ++ mid ++ [BusEvent.deselect, BusEvent.rcv b]) ∧
    ( disk_initialize K s).2.selected = false ∧
    (∃ mid b, ( disk_readp K dest lba ofs cnt s).2.trace =
      s.trace ++ mid ++ [BusEvent.deselect, BusEvent.rcv b]) ∧
    ( disk_readp K dest lba ofs cnt s).2.selected = false := by
  refine ⟨?_, ?_, ?_, ?_⟩
  · obtain ⟨-, l, hl⟩ := (warm_up_continues s).trans (card_type_continues K (warm_up s))
    obtain ⟨-, -, h3⟩ := disk_initialize_of_card_type K s (card_type K (warm_up s)).2
      (card_type K (warm_up s)).1 Prod.mk.eta.symm
    exact ⟨l, _, by rw [h3, hl]⟩
  · exact release_spi_selected _
  · rw [disk_readp_eq]
    obtain ⟨-, l, hl⟩ := send_cmd_continues CMD17 (readArg K s.CardType lba) s
    obtain ⟨-, l', hl'⟩ :=
      wait_token_continues 30000 (send_cmd CMD17 (readArg K s.CardType lba) s).2
    split_ifs
    · exact ⟨l ++ l' ++ [BusEvent.fwd dest ofs cnt], _, by
        rw [release_spi_trace, fwd_blk_part_trace, hl', hl]
        simp only [List.append_assoc]
        rfl⟩
    · exact ⟨l ++ l', _, by
        rw [release_spi_trace, hl', hl]
        simp only [List.append_assoc]
        rfl⟩
    · exact ⟨l, _, by rw [release_spi_trace, hl]⟩
  · rw [disk_readp_eq]
    split_ifs <;> exact release_spi_selected _

/-! ## C10: application commands -/

/-- C10. For a command byte with bit 7 set, `send_cmd` first sends CMD55 with
argument 0 (the packet 0x77 0 0 0 0 0x01); if the response `r` to it is greater
than 1, `send_cmd` returns `r` in the state the prefix left, so nothing of the
intended command is transmitted; if `r ≤ 1`, it then sends the command with bit
7 cleared (0x69 for ACMD41) and the given argument as one packet and returns
the response to that packet. -/
theorem send_cmd_application (cmd arg : Nat) (s s1 : Drive) (r : Nat)
    (hc : cmd < 256) (h7 : cmd &&& 0x80 ≠ 0)
    (h55 : send_cmd CMD55 0 s = (r, s1)) :
    xmits s1.trace = xmits s.trace ++ [0x77, 0x00, 0x00, 0x00, 0x00, 0x01] ∧
    (1 < r → send_cmd cmd arg s = (r, s1)) ∧
    (r ≤ 1 →
      send_cmd cmd arg s = send_cmd (cmd &&& 0x7F) arg s1 ∧
      send_cmd cmd arg s = send_packet (cmd &&& 0x7F) arg s1 ∧
      xmits (send_cmd cmd arg s).2.trace =
        xmits s.trace ++ [0x77, 0x00, 0x00, 0x00, 0x00, 0x01] ++
          [cmd &&& 0x7F, (arg >>> 24) % 256, (arg >>> 16) % 256, (arg >>> 8) % 256, arg % 256,
            crcByte (cmd &&& 0x7F)]) ∧
    ACMD41 &&& 0x7F = 0x69 := by
  have hm : cmd % 256 = cmd := Nat.mod_eq_of_lt hc
  have hp : send_packet CMD55 0 s = (r, s1) := by
    rw [← h55, send_cmd_plain CMD55 0 s (by decide)]; rfl
  have hx : xmits s1.trace = xmits s.trace ++ [0x77, 0x00, 0x00, 0x00, 0x00, 0x01] := by
    have := send_packet_xmits CMD55 0 s
    rw [hp] at this
    exact this
  have hlt : cmd &&& 0x7F < 128 := Nat.lt_of_le_of_lt Nat.and_le_right (by decide)
  have hm7 : (cmd &&& 0x7F) % 256 = cmd &&& 0x7F := Nat.mod_eq_of_lt (by omega)
  have hb7 : (cmd &&& 0x7F) % 256 &&& 0x80 = 0 := by
    have h0 : (0x7F &&& 0x80 : Nat) = 0 := by decide
    rw [hm7, Nat.and_assoc, h0, Nat.and_zero]
  refine ⟨hx, ?_, ?_, by decide⟩
  · intro hr
    rw [send_cmd_eq, hm, if_pos h7, hp, if_pos hr]
  · intro hr
    have hnot : ¬ (r > 1) := by omega
    have e1 : send_cmd cmd arg s = send_packet (cmd &&& 0x7F) arg s1 := by
      rw [send_cmd_eq, hm, if_pos h7, hp, if_neg hnot]
    refine ⟨?_, e1, ?_⟩
    · rw [e1, send_cmd_plain _ arg s1 hb7, hm7]
    · rw [e1, send_packet_xmits, hx, frame, hm7]

/-- C10 at ACMD41 with HCS: with the prefix answered 0x01 both packets are sent
and the response is the one to the second; with the prefix unanswered (ten
bytes 0xFF) the response 0xFF is returned and only the CMD55 packet is sent. -/
theorem send_cmd_application_witness :
    (send_cmd ACMD41 (1 <<< 30) (driveOf [0xFF, 0xFF, 0x01, 0xFF, 0xFF, 0x00])).1 = 0x00 ∧
    xmits (send_cmd ACMD41 (1 <<< 30) (driveOf [0xFF, 0xFF, 0x01, 0xFF, 0xFF, 0x00])).2.trace =
      [0x77, 0x00, 0x00, 0x00, 0x00, 0x01, 0x69, 0x40, 0x00, 0x00, 0x00, 0x01] ∧
    (send_cmd ACMD41 (1 <<< 30) (driveOf [])).1 = 0xFF ∧
    xmits (send_cmd ACMD41 (1 <<< 30) (driveOf [])).2.trace =
      [0x77, 0x00, 0x00, 0x00, 0x00, 0x01] := by
  have ha := send_cmd_application ACMD41 (1 <<< 30)
    (driveOf [0xFF, 0xFF, 0x01, 0xFF, 0xFF, 0x00]) _ 0x01 (by decide) (by decide)
    (pair_of_fst (by decide))
  have hb := send_cmd_application ACMD41 (1 <<< 30) (driveOf []) _ 0xFF (by decide) (by decide)
    (pair_of_fst (by decide))
  obtain ⟨e1, e2, e3⟩ := ha.2.2.1 (by decide)
  have e4 := hb.2.1 (by decide)
  refine ⟨?_, ?_, ?_, ?_⟩
  · rw [e2]; decide
  · rw [e3]; decide
  · rw [e4]
  · rw [e4]; exact hb.1

/-! ## C11: who writes the classification -/

@[simp] theorem xmit_spi_CardType (b : Nat) (s : Drive) :
    (xmit_spi b s).CardType = s.CardType := rfl

@[simp] theorem SELECT_CardType (s : Drive) : (SELECT s).CardType = s.CardType := rfl

@[simp] theorem DESELECT_CardType (s : Drive) : (DESELECT s).CardType = s.CardType := rfl

@[simp] theorem fwd_blk_part_CardType (dest ofs cnt : Nat) (s : Drive) :
    (fwd_blk_part dest ofs cnt s).CardType = s.CardType := rfl

@[simp] theorem recv_response_CardType (n : Nat) (s : Drive) :
    (recv_response n s).2.CardType = s.CardType := by
  induction n generalizing s with
  | zero => rfl
  | succ n ih =>
    simp only [recv_response]
    split_ifs
    · rw [ih]; rfl
    · rfl

@[simp] theorem send_packet_CardType (cmd arg : Nat) (s : Drive) :
    (send_packet cmd arg s).2.CardType = s.CardType := by
  simp [send_packet]

@[simp] theorem send_cmd_CardType (cmd arg : Nat) (s : Drive) :
    (send_cmd cmd arg s).2.CardType = s.CardType := by
  rw [send_cmd_eq]
  split_ifs <;> simp

@[simp] theorem wait_token_CardType (n : Nat) (s : Drive) :
    (wait_token n s).2.CardType = s.CardType := by
  induction n generalizing s with
  | zero => rfl
  | succ n ih =>
    simp only [wait_token]
    split_ifs
    · rw [ih]; rfl
    · rfl

@[simp] theorem wait_ready_CardType (cmd arg n : Nat) (s : Drive) :
    (wait_ready cmd arg n s).2.CardType = s.CardType := by
  induction n generalizing s with
  | zero => rfl
  | succ n ih =>
    simp only [wait_ready]
    split_ifs
    · rw [ih, send_cmd_CardType]
    · exact send_cmd_CardType cmd arg s

@[simp] theorem dummy_clocks_CardType (n : Nat) (s : Drive) :
    (dummy_clocks n s).CardType = s.CardType := by
  induction n generalizing s with
  | zero => rfl
  | succ n ih => rw [dummy_clocks, ih]; rfl

@[simp] theorem rcv_ocr_CardType (s : Drive) : (rcv_ocr s).2.CardType = s.CardType := rfl

@[simp] theorem warm_up_CardType (s : Drive) : (warm_up s).CardType = s.CardType := by
  simp only [warm_up, dummy_clocks_CardType, SELECT_CardType]

theorem init_sd2_CardType (K : DiskHeader) (s : Drive) :
    (init_sd2 K s).2.CardType = s.CardType := by
  have h1 := rcv_ocr_CardType s
  have h2 := wait_ready_CardType ACMD41 (1 <<< 30) 25000 (rcv_ocr s).2
  have h3 := send_cmd_CardType CMD58 0 (wait_ready ACMD41 (1 <<< 30) 25000 (rcv_ocr s).2).2
  have h4 := rcv_ocr_CardType
    (send_cmd CMD58 0 (wait_ready ACMD41 (1 <<< 30) 25000 (rcv_ocr s).2).2).2
  unfold init_sd2
  dsimp only
  generalize wait_ready ACMD41 (1 <<< 30) 25000 (rcv_ocr s).2 = w at h2 h3 h4 ⊢
  split_ifs <;>
    first
    | exact h1
    | exact h2.trans h1
    | exact h3.trans (h2.trans h1)

theorem init_sd1_mmc_CardType (K : DiskHeader) (s : Drive) :
    (init_sd1_mmc K s).2.CardType = s.CardType := by
  have h1 := send_cmd_CardType ACMD41 0 s
  have h2 := wait_ready_CardType
    (if (send_cmd ACMD41 0 s).1 ≤ 1 then ACMD41 else CMD1) 0 25000 (send_cmd ACMD41 0 s).2
  have h3 := send_cmd_CardType CMD16 512 (wait_ready
    (if (send_cmd ACMD41 0 s).1 ≤ 1 then ACMD41 else CMD1) 0 25000 (send_cmd ACMD41 0 s).2).2
  unfold init_sd1_mmc
  dsimp only
  generalize wait_ready (if (send_cmd ACMD41 0 s).1 ≤ 1 then ACMD41 else CMD1) 0 25000
    (send_cmd ACMD41 0 s).2 = w at h2 h3 ⊢
  split_ifs <;> first | exact h2.trans h1 | exact h3.trans (h2.trans h1)

theorem card_type_CardType (K : DiskHeader) (s : Drive) :
    (card_type K s).2.CardType = s.CardType := by
  have h1 := send_cmd_CardType CMD0 0 s
  have h2 := send_cmd_CardType CMD8 0x1AA (send_cmd CMD0 0 s).2
  unfold card_type
  dsimp only
  split_ifs
  · exact (init_sd2_CardType K _).trans (h2.trans h1)
  · exact (init_sd1_mmc_CardType K _).trans (h2.trans h1)
  · exact h1

/-- C11. `disk_readp` and `send_cmd` return a state with the `CardType` they were
given, for every stream, card type and arguments. `disk_initialize` assigns it
once: `CardType` keeps its old value in every state up to the assignment of
line 147 (after the warm up and after the whole detection), the assignment
stores `ty`, and the release that follows leaves it alone. -/
theorem CardType_written_once (K : DiskHeader) (dest lba ofs cnt cmd arg : Nat) (s : Drive) :
    ( disk_readp K dest lba ofs cnt s).2.CardType = s.CardType ∧
    (send_cmd cmd arg s).2.CardType = s.CardType ∧
    (warm_up s).CardType = s.CardType ∧
    (card_type K (warm_up s)).2.CardType = s.CardType ∧
    ( disk_initialize K s).2.CardType = (card_type K (warm_up s)).1 := by
  refine ⟨?_, send_cmd_CardType cmd arg s, warm_up_CardType s, ?_, ?_⟩
  · rw [disk_readp_eq]
    split_ifs <;> simp
  · rw [card_type_CardType, warm_up_CardType]
  · simp only [ disk_initialize, release_spi_CardType]

/-! ### Packets, event by event -/

theorem next_of_pos (s s1 : Drive) (d : Nat) (hm : s1.miso = s.miso) (hp : s1.pos = s.pos + d)
    (i : Nat) : s1.next i = s.next (d + i) := by
  simp only [Drive.next, hm, hp, Nat.add_assoc]

theorem rcvs_of_pos (s s1 : Drive) (d : Nat) (hm : s1.miso = s.miso) (hp : s1.pos = s.pos + d)
    (i n : Nat) : rcvs s1 i n = rcvs s (d + i) n := by
  induction n generalizing i with
  | zero => rfl
  | succ n ih => simp only [rcvs, next_of_pos s s1 d hm hp, ih, Nat.add_assoc]

theorem packetEvents_of_pos (s s1 : Drive) (d : Nat) (hm : s1.miso = s.miso)
    (hp : s1.pos = s.pos + d) (i cmd arg k : Nat) :
    packetEvents s1 i cmd arg k = packetEvents s (d + i) cmd arg k := by
  simp only [packetEvents, next_of_pos s s1 d hm hp, rcvs_of_pos s s1 d hm hp, Nat.add_assoc]

theorem rcv_spi_eq_advance (s : Drive) :
    rcv_spi s = (s.next 0, advance s 1 [BusEvent.rcv (s.next 0)]) := rfl

theorem advance_advance (s : Drive) (a b : Nat) (t u : List BusEvent) :
    advance (advance s a t) b u = advance s (a + b) (t ++ u) := by
  simp only [advance, Nat.add_assoc, List.append_assoc]

theorem rcvs_advance (s : Drive) (a : Nat) (t : List BusEvent) (i n : Nat) :
    rcvs (advance s a t) i n = rcvs s (a + i) n :=
  rcvs_of_pos s (advance s a t) a rfl rfl i n

theorem rcvs_append (s : Drive) (i n m : Nat) :
    rcvs s i (n + m) = rcvs s i n ++ rcvs s (i + n) m := by
  induction n generalizing i with
  | zero => simp [rcvs]
  | succ n ih =>
    rw [Nat.succ_add, rcvs, rcvs, ih (i + 1)]
    simp only [List.cons_append, Nat.add_assoc, Nat.add_comm 1 n]

/-- The response loop entered with counter `n` stops after read number `j + 1`
when byte `j` is the first with bit 7 clear, or when `j + 1 = n`. -/
theorem recv_response_spec (n j : Nat) (s : Drive) (hj : j < n)
    (hwait : ∀ i, i < j → s.next i &&& 0x80 ≠ 0)
    (hstop : s.next j &&& 0x80 = 0 ∨ j + 1 = n) :
    recv_response n s = (s.next j, advance s (j + 1) (rcvs s 0 (j + 1))) := by
  induction n generalizing j s with
  | zero => omega
  | succ n ih =>
    simp only [recv_response, rcv_spi_eq_advance]
    cases j with
    | zero =>
      have hc : ¬ (s.next 0 &&& 0x80 ≠ 0 ∧ n ≠ 0) := by
        rintro ⟨h1, h2⟩
        rcases hstop with h | h
        · exact h1 h
        · omega
      rw [if_neg hc]
      rfl
    | succ j =>
      have hc : s.next 0 &&& 0x80 ≠ 0 ∧ n ≠ 0 := ⟨hwait 0 (Nat.succ_pos j), by omega⟩
      rw [if_pos hc]
      have hn : ∀ i, (advance s 1 [BusEvent.rcv (s.next 0)]).next i = s.next (1 + i) :=
        fun i => next_of_pos s (advance s 1 [BusEvent.rcv (s.next 0)]) 1 rfl rfl i
      rw [ih j (advance s 1 [BusEvent.rcv (s.next 0)]) (by omega)
        (fun i hi => by rw [hn, Nat.add_comm]; exact hwait (i + 1) (by omega))
        (by rw [hn, Nat.add_comm]; rcases hstop with h | h
            · exact Or.inl h
            · exact Or.inr (by omega))]
      rw [hn, advance_advance, rcvs_advance, Nat.add_comm 1 j, Nat.add_comm 1 (j + 1)]
      rfl

/-- Some read among the first `n` stops the response loop. -/
theorem exists_stop (n : Nat) (hn : 0 < n) (s : Drive) (i0 : Nat) :
    ∃ j, j < n ∧ (∀ i, i < j → s.next (i0 + i) &&& 0x80 ≠ 0) ∧
      (s.next (i0 + j) &&& 0x80 = 0 ∨ j + 1 = n) := by
  by_cases h : ∃ j, j < n ∧ s.next (i0 + j) &&& 0x80 = 0
  · classical
    refine ⟨Nat.find h, (Nat.find_spec h).1, ?_, Or.inl (Nat.find_spec h).2⟩
    intro i hi hz
    exact Nat.find_min h hi ⟨lt_trans hi (Nat.find_spec h).1, hz⟩
  · refine ⟨n - 1, by omega, ?_, Or.inr (by omega)⟩
    intro i hi hz
    exact h ⟨i, by omega, hz⟩

theorem crcByte_byte (cmd : Nat) :
    (if cmd = CMD8 then 0x87 else if cmd = CMD0 then 0x95 else 0x01) % 256 = crcByte cmd := by
  unfold crcByte; split_ifs <;> rfl

/-- One packet, when response read number `j + 1` is the one that stops the
loop: the response, and the state with the select line low, `j + 3` bytes
consumed and the events of the packet appended. -/
theorem send_packet_spec (cmd arg j : Nat) (s : Drive) (hj : j < 10)
    (hwait : ∀ i, i < j → s.next (2 + i) &&& 0x80 ≠ 0)
    (hstop : s.next (2 + j) &&& 0x80 = 0 ∨ j + 1 = 10) :
    send_packet cmd arg s =
      (s.next (2 + j),
        { s with PORTB := (s.PORTB ||| 0x01) % 256 &&& 0xFE, pos := s.pos + (j + 3),
                 trace := s.trace ++ packetEvents s 0 cmd arg (j + 1) }) := by
  have hS : ∀ S : Drive, S.miso = s.miso → S.pos = s.pos + 2 →
      recv_response 10 S = (s.next (2 + j), advance S (j + 1) (rcvs s 2 (j + 1))) := by
    intro S hm hp
    have hn := next_of_pos s S 2 hm hp
    rw [recv_response_spec 10 j S hj (fun i hi => by rw [hn]; exact hwait i hi)
      (by rw [hn]; exact hstop), hn, rcvs_of_pos s S 2 hm hp]
  unfold send_packet
  dsimp only
  generalize hdef : xmit_spi (if cmd = CMD8 then 0x87 else if cmd = CMD0 then 0x95 else 0x01)
    (xmit_spi arg (xmit_spi (arg >>> 8) (xmit_spi (arg >>> 16) (xmit_spi (arg >>> 24)
      (xmit_spi cmd (rcv_spi (SELECT (rcv_spi (DESELECT s)).2)).2))))) = S
  have hm : S.miso = s.miso := by rw [← hdef]; rfl
  have hp : S.pos = s.pos + 2 := by rw [← hdef]; rfl
  rw [hS S hm hp, ← hdef]
  simp only [advance, xmit_spi, rcv_spi, SELECT, DESELECT, packetEvents, frame, crcByte_byte,
    List.append_assoc, List.map, List.cons_append, List.nil_append, Drive.next, Nat.add_zero,
    Nat.zero_add]
  have hpos : s.pos + 1 + 1 + (j + 1) = s.pos + (j + 3) := by omega
  rw [hpos]

/-- Every packet is one of the shapes of `send_packet_spec`. -/
theorem send_packet_events (cmd arg : Nat) (s : Drive) :
    ∃ j, j < 10 ∧ (∀ i, i < j → s.next (2 + i) &&& 0x80 ≠ 0) ∧
      (s.next (2 + j) &&& 0x80 = 0 ∨ j + 1 = 10) ∧
      send_packet cmd arg s =
        (s.next (2 + j),
          { s with PORTB := (s.PORTB ||| 0x01) % 256 &&& 0xFE, pos := s.pos + (j + 3),
                   trace := s.trace ++ packetEvents s 0 cmd arg (j + 1) }) := by
  obtain ⟨j, hj, hwait, hstop⟩ := exists_stop 10 (by decide) s 2
  exact ⟨j, hj, hwait, hstop, send_packet_spec cmd arg j s hj hwait hstop⟩

theorem selected_of_PORTB (s : Drive) (x : Nat) (h : s.PORTB = x &&& 0xFE) :
    s.selected = true := by
  have h0 : (0xFE &&& 0x01 : Nat) = 0 := by decide
  unfold Drive.selected
  rw [h, Nat.and_assoc, h0, Nat.and_zero]
  rfl

@[simp] theorem rcvCount_append (a b : List BusEvent) :
    rcvCount (a ++ b) = rcvCount a + rcvCount b := by
  induction a with
  | nil => simp [rcvCount]
  | cons e t ih => cases e <;> simp [rcvCount, ih]; omega

@[simp] theorem rcvCount_rcvs (s : Drive) (i n : Nat) : rcvCount (rcvs s i n) = n := by
  induction n generalizing i with
  | zero => rfl
  | succ n ih => simp [rcvs, rcvCount, ih]

@[simp] theorem xmits_rcvs (s : Drive) (i n : Nat) : xmits (rcvs s i n) = [] := by
  induction n generalizing i with
  | zero => rfl
  | succ n ih => simp [rcvs, xmits, ih]

theorem xmits_packetEvents (s : Drive) (i cmd arg k : Nat) :
    xmits (packetEvents s i cmd arg k) = frame cmd arg := by
  simp [packetEvents, xmits, frame]

theorem rcvCount_packetEvents (s : Drive) (i cmd arg k : Nat) :
    rcvCount (packetEvents s i cmd arg k) = k + 2 := by
  simp [packetEvents, rcvCount, frame]

theorem frame_length (cmd arg : Nat) : (frame cmd arg).length = 6 := rfl

/-- One packet, field by field. -/
theorem send_packet_fields (cmd arg : Nat) (s : Drive) :
    ∃ k, 1 ≤ k ∧ k ≤ 10 ∧
      (send_packet cmd arg s).2.trace = s.trace ++ packetEvents s 0 cmd arg k ∧
      (send_packet cmd arg s).2.pos = s.pos + (k + 2) ∧
      (send_packet cmd arg s).2.miso = s.miso ∧
      (send_packet cmd arg s).2.selected = true ∧
      (send_packet cmd arg s).1 = s.next (k + 1) := by
  obtain ⟨j, hj, -, -, e⟩ := send_packet_events cmd arg s
  rw [e]
  exact ⟨j + 1, by omega, by omega, rfl, rfl, rfl, selected_of_PORTB _ _ rfl,
    by rw [Nat.add_comm 2 j]⟩

/-- The trace, the position and the select line after `send_cmd`, for every
command: one packet, or the CMD55 packet alone, or the CMD55 packet and the
packet of the command without bit 7. -/
theorem send_cmd_events (cmd arg : Nat) (s : Drive) :
    (send_cmd cmd arg s).2.selected = true ∧ (send_cmd cmd arg s).2.miso = s.miso ∧
    ((cmd % 256 &&& 0x80 = 0 ∧ ∃ k, 1 ≤ k ∧ k ≤ 10 ∧
        (send_cmd cmd arg s).2.trace = s.trace ++ packetEvents s 0 (cmd % 256) arg k ∧
        (send_cmd cmd arg s).2.pos = s.pos + (k + 2)) ∨
     (cmd % 256 &&& 0x80 ≠ 0 ∧ ∃ k, 1 ≤ k ∧ k ≤ 10 ∧
        (((send_cmd cmd arg s).2.trace = s.trace ++ packetEvents s 0 CMD55 0 k ∧
            (send_cmd cmd arg s).2.pos = s.pos + (k + 2)) ∨
          ∃ k', 1 ≤ k' ∧ k' ≤ 10 ∧
            (send_cmd cmd arg s).2.trace =
              s.trace ++ packetEvents s 0 CMD55 0 k ++
                packetEvents s (k + 2) (cmd % 256 &&& 0x7F) arg k' ∧
            (send_cmd cmd arg s).2.pos = s.pos + (k + 2) + (k' + 2)))) := by
  rw [send_cmd_eq]
  by_cases h7 : cmd % 256 &&& 0x80 = 0
  · obtain ⟨k, hk1, hk2, ht, hp, hm, hs, -⟩ := send_packet_fields (cmd % 256) arg s
    simp only [h7, ne_eq, not_true_eq_false, if_false]
    exact ⟨hs, hm, Or.inl ⟨trivial, k, hk1, hk2, ht, hp⟩⟩
  · obtain ⟨k, hk1, hk2, ht, hp, hm, hs, -⟩ := send_packet_fields CMD55 0 s
    simp only [h7, ne_eq, not_false_eq_true, if_true]
    split_ifs
    · exact ⟨hs, hm, Or.inr ⟨trivial, k, hk1, hk2, Or.inl ⟨ht, hp⟩⟩⟩
    · obtain ⟨k', hk1', hk2', ht', hp', hm', hs', -⟩ :=
        send_packet_fields (cmd % 256 &&& 0x7F) arg (send_packet CMD55 0 s).2
      refine ⟨hs', hm'.trans hm,
        Or.inr ⟨trivial, k, hk1, hk2, Or.inr ⟨k', hk1', hk2', ?_, ?_⟩⟩⟩
      · rw [ht', ht, packetEvents_of_pos s _ (k + 2) hm hp 0, Nat.add_zero]
      · rw [hp', hp]

/-! ## C13: the command packet -/

/-- C13. For a command byte with bit 7 clear and a 32 bit argument, `send_cmd`
transmits exactly six bytes: the command, bits 31..24, 23..16, 15..8 and 7..0
of the argument, and a last byte that is 0x95 for CMD0, 0x87 for CMD8 and 0x01
for every other command; the four argument bytes, most significant first,
give back the argument. -/
theorem send_cmd_frame (cmd arg : Nat) (s : Drive) (hc : cmd < 256) (h7 : cmd &&& 0x80 = 0)
    (ha : arg < 2 ^ 32) :
    xmits (send_cmd cmd arg s).2.trace =
      xmits s.trace ++
        [cmd, arg / 2 ^ 24 % 256, arg / 2 ^ 16 % 256, arg / 2 ^ 8 % 256, arg % 256,
          if cmd = CMD0 then 0x95 else if cmd = CMD8 then 0x87 else 0x01] ∧
    be32 (arg / 2 ^ 24 % 256) (arg / 2 ^ 16 % 256) (arg / 2 ^ 8 % 256) (arg % 256) = arg := by
  have hm : cmd % 256 = cmd := Nat.mod_eq_of_lt hc
  have hcrc : crcByte cmd = if cmd = CMD0 then 0x95 else if cmd = CMD8 then 0x87 else 0x01 := by
    unfold crcByte
    by_cases h0 : cmd = CMD0
    · have h8 : CMD0 ≠ CMD8 := by decide
      simp [h0, h8]
    · simp [h0]
  constructor
  · rw [send_cmd_plain cmd arg s (by rw [hm]; exact h7), send_packet_xmits, hm, frame, hm, hcrc]
    simp only [Nat.shiftRight_eq_div_pow]
  · have := be32_bytes arg ha
    simp only [Nat.shiftRight_eq_div_pow] at this
    exact this

/-- C13 at CMD17 with argument 5120 and at CMD0. -/
theorem send_cmd_frame_witness :
    xmits (send_cmd CMD17 5120 (driveOf [])).2.trace = [0x51, 0x00, 0x00, 0x14, 0x00, 0x01] ∧
    xmits (send_cmd CMD0 0 (driveOf [])).2.trace = [0x40, 0x00, 0x00, 0x00, 0x00, 0x95] ∧
    be32 0x00 0x00 0x14 0x00 = 5120 :=
  ⟨(send_cmd_frame CMD17 5120 (driveOf []) (by decide) (by decide) (by decide)).1,
   (send_cmd_frame CMD0 0 (driveOf []) (by decide) (by decide) (by decide)).1,
   (send_cmd_frame CMD17 5120 (driveOf []) (by decide) (by decide) (by decide)).2⟩

/-! ## C14: the response -/

/-- C14. For a command byte with bit 7 clear, let byte `j < 10` (from 0) of the
bytes that follow the two bytes of the bracket be the first with bit 7 clear,
or let `j = 9` if the first nine all have bit 7 set. Then after the bracket and
the six bytes of the packet `send_cmd` calls `rcv_spi` exactly `j + 1` times and
returns the last byte read; so it reads at most 10 bytes, stops at the first
valid response, and when none of the 10 is valid returns the tenth, which has
bit 7 set. -/
theorem send_cmd_response (cmd arg j : Nat) (s : Drive) (h7 : cmd % 256 &&& 0x80 = 0)
    (hj : j < 10) (hwait : ∀ i, i < j → s.next (2 + i) &&& 0x80 ≠ 0)
    (hstop : s.next (2 + j) &&& 0x80 = 0 ∨ j = 9) :
    (send_cmd cmd arg s).1 = s.next (2 + j) ∧
    (send_cmd cmd arg s).2.trace =
      s.trace ++
        [BusEvent.deselect, BusEvent.rcv (s.next 0), BusEvent.select, BusEvent.rcv (s.next 1)] ++
        (frame (cmd % 256) arg).map BusEvent.xmit ++ rcvs s 2 (j + 1) ∧
    (send_cmd cmd arg s).2.pos = s.pos + 2 + (j + 1) ∧
    rcvCount (rcvs s 2 (j + 1)) = j + 1 ∧ j + 1 ≤ 10 ∧
    (s.next (2 + j) &&& 0x80 ≠ 0 → j = 9 ∧ (send_cmd cmd arg s).1 &&& 0x80 ≠ 0) := by
  have e := send_packet_spec (cmd % 256) arg j s hj hwait
    (by rcases hstop with h | h
        · exact Or.inl h
        · exact Or.inr (by omega))
  rw [send_cmd_plain cmd arg s h7, e]
  refine ⟨rfl, ?_, ?_, rcvCount_rcvs s 2 (j + 1), hj, ?_⟩
  · simp only [packetEvents, List.append_assoc]
  · show s.pos + (j + 3) = s.pos + 2 + (j + 1)
    omega
  · intro hb
    rcases hstop with h | h
    · exact absurd h hb
    · exact ⟨h, hb⟩

/-- C14 at two cards: a response 0x05 after three bytes 0xFF is returned after
four reads; with no card the tenth byte 0xFF is returned after ten reads. -/
theorem send_cmd_response_witness :
    ((send_cmd CMD17 0 (driveOf [0xFF, 0xFF, 0xFF, 0xFF, 0xFF, 0x05])).1 = 0x05 ∧
      (send_cmd CMD17 0 (driveOf [0xFF, 0xFF, 0xFF, 0xFF, 0xFF, 0x05])).2.pos = 2 + 4) ∧
    ((send_cmd CMD17 0 (driveOf [])).1 = 0xFF ∧ (send_cmd CMD17 0 (driveOf [])).2.pos = 2 + 10) := by
  have h1 := send_cmd_response CMD17 0 3 (driveOf [0xFF, 0xFF, 0xFF, 0xFF, 0xFF, 0x05])
    (by decide) (by decide) (by decide) (by decide)
  have h2 := send_cmd_response CMD17 0 9 (driveOf []) (by decide) (by decide) (by decide)
    (by decide)
  exact ⟨⟨h1.1, h1.2.2.1⟩, ⟨h2.1, h2.2.2.1⟩⟩

/-! ## C15: the bracket of every packet -/

/-- C15. Every call of `send_cmd` leaves the card selected, and its events are
one packet (plain command), the CMD55 packet (application command given up
after the prefix), or the CMD55 packet followed by the packet of the command;
every packet is deselect, one byte received, select, one byte received, the
six bytes of the command, and then only reads of the response. -/
theorem send_cmd_bracketed (cmd arg : Nat) (s : Drive) :
    (send_cmd cmd arg s).2.selected = true ∧
    ((cmd % 256 &&& 0x80 = 0 ∧ ∃ k, 1 ≤ k ∧ k ≤ 10 ∧
        (send_cmd cmd arg s).2.trace = s.trace ++ packetEvents s 0 (cmd % 256) arg k) ∨
     (cmd % 256 &&& 0x80 ≠ 0 ∧ ∃ k, 1 ≤ k ∧ k ≤ 10 ∧
        ((send_cmd cmd arg s).2.trace = s.trace ++ packetEvents s 0 CMD55 0 k ∨
          ∃ k', 1 ≤ k' ∧ k' ≤ 10 ∧
            (send_cmd cmd arg s).2.trace =
              s.trace ++ packetEvents s 0 CMD55 0 k ++
                packetEvents s (k + 2) (cmd % 256 &&& 0x7F) arg k'))) ∧
    (∀ i c a k, packetEvents s i c a k =
      [BusEvent.deselect, BusEvent.rcv (s.next i), BusEvent.select,
        BusEvent.rcv (s.next (i + 1)),
        BusEvent.xmit (c % 256), BusEvent.xmit ((a >>> 24) % 256),
        BusEvent.xmit ((a >>> 16) % 256), BusEvent.xmit ((a >>> 8) % 256),
        BusEvent.xmit (a % 256), BusEvent.xmit (crcByte c)] ++ rcvs s (i + 2) k) := by
  obtain ⟨hs, -, h⟩ := send_cmd_events cmd arg s
  refine ⟨hs, ?_, fun i c a k => rfl⟩
  rcases h with ⟨h7, k, hk1, hk2, ht, -⟩ | ⟨h7, k, hk1, hk2, h⟩
  · exact Or.inl ⟨h7, k, hk1, hk2, ht⟩
  · rcases h with ⟨ht, -⟩ | ⟨k', hk1', hk2', ht, -⟩
    · exact Or.inr ⟨h7, k, hk1, hk2, Or.inl ht⟩
    · exact Or.inr ⟨h7, k, hk1, hk2, Or.inr ⟨k', hk1', hk2', ht⟩⟩

/-! ## C18: the dispatch is bounded -/

/-- C18. `send_cmd` returns for every command, argument and stream with one
nested call at most: a recursion bound of 2 is enough for every command, a
bound of 1 is enough for a command with bit 7 clear and for the nested CMD55,
and not enough for a command with bit 7 set. It transmits 6 or 12 bytes and
calls `rcv_spi` at most 24 times; for a command with bit 7 clear it transmits
6 bytes and calls `rcv_spi` at most 12 times. -/
theorem send_cmd_bounded (d cmd arg : Nat) (s : Drive) :
    send_cmd_depth (d + 2) cmd arg s = some (send_cmd cmd arg s) ∧
    CMD55 = 0x77 ∧ CMD55 % 256 &&& 0x80 = 0 ∧
    send_cmd_depth (d + 1) CMD55 0 s = some (send_cmd CMD55 0 s) ∧
    (cmd % 256 &&& 0x80 = 0 → send_cmd_depth (d + 1) cmd arg s = some (send_cmd cmd arg s)) ∧
    (cmd % 256 &&& 0x80 ≠ 0 → send_cmd_depth 1 cmd arg s = none) ∧
    (∃ m n, (xmits (send_cmd cmd arg s).2.trace).length = (xmits s.trace).length + m ∧
      rcvCount (send_cmd cmd arg s).2.trace = rcvCount s.trace + n ∧
      (send_cmd cmd arg s).2.pos = s.pos + n ∧
      (m = 6 ∨ m = 12) ∧ n ≤ 24 ∧ (cmd % 256 &&& 0x80 = 0 → m = 6 ∧ n ≤ 12)) := by
  refine ⟨send_cmd_depth_eq d cmd arg s, rfl, by decide, ?_, ?_, ?_, ?_⟩
  · rw [send_cmd_depth_plain d CMD55 0 s (by decide), send_cmd_plain CMD55 0 s (by decide)]
  · intro h7
    rw [send_cmd_depth_plain d cmd arg s h7, send_cmd_plain cmd arg s h7]
  · intro h7
    simp [send_cmd_depth, h7]
  · obtain ⟨-, -, h⟩ := send_cmd_events cmd arg s
    rcases h with ⟨h7, k, hk1, hk2, ht, hp⟩ | ⟨h7, k, hk1, hk2, h⟩
    · refine ⟨6, k + 2, ?_, ?_, hp, Or.inl rfl, by omega, fun _ => ⟨rfl, by omega⟩⟩
      · rw [ht, xmits_append, xmits_packetEvents, List.length_append, frame_length]
      · rw [ht, rcvCount_append, rcvCount_packetEvents]
    · rcases h with ⟨ht, hp⟩ | ⟨k', hk1', hk2', ht, hp⟩
      · refine ⟨6, k + 2, ?_, ?_, hp, Or.inl rfl, by omega, fun h => absurd h h7⟩
        · rw [ht, xmits_append, xmits_packetEvents, List.length_append, frame_length]
        · rw [ht, rcvCount_append, rcvCount_packetEvents]
      · refine ⟨12, (k + 2) + (k' + 2), ?_, ?_, by rw [hp, Nat.add_assoc], Or.inr rfl,
          by omega, fun h => absurd h h7⟩
        · rw [ht, xmits_append, xmits_append, xmits_packetEvents, xmits_packetEvents,
            List.length_append, List.length_append, frame_length, frame_length]
        · rw [ht, rcvCount_append, rcvCount_append, rcvCount_packetEvents,
            rcvCount_packetEvents, Nat.add_assoc]

/-! ### The commands of the initialisation -/

theorem framesOf_append (a b : List (Nat × Nat)) :
    framesOf (a ++ b) = framesOf a ++ framesOf b := by
  induction a with
  | nil => rfl
  | cons c cs ih => simp [framesOf, ih]

theorem Sends.of_xmits {P : Nat × Nat → Prop} {s s' : Drive}
    (h : xmits s'.trace = xmits s.trace) : Sends P s s' :=
  ⟨[], by simp [framesOf, h], by simp⟩

theorem Sends.comp {P : Nat × Nat → Prop} {a b c : Drive} (h1 : Sends P a b)
    (h2 : Sends P b c) : Sends P a c := by
  obtain ⟨l1, e1, p1⟩ := h1
  obtain ⟨l2, e2, p2⟩ := h2
  refine ⟨l1 ++ l2, by rw [e2, e1, framesOf_append, List.append_assoc], ?_⟩
  intro x hx
  rcases List.mem_append.mp hx with h | h
  · exact p1 x h
  · exact p2 x h

theorem send_packet_sends {P : Nat × Nat → Prop} (cmd arg : Nat) (s : Drive)
    (h : P (cmd, arg)) : Sends P s (send_packet cmd arg s).2 :=
  ⟨[(cmd, arg)], by rw [send_packet_xmits]; simp [framesOf], by simpa using h⟩

theorem send_cmd_sends {P : Nat × Nat → Prop} (cmd arg : Nat) (s : Drive)
    (hplain : cmd % 256 &&& 0x80 = 0 → P (cmd % 256, arg))
    (happ : cmd % 256 &&& 0x80 ≠ 0 → P (CMD55, 0) ∧ P (cmd % 256 &&& 0x7F, arg)) :
    Sends P s (send_cmd cmd arg s).2 := by
  rw [send_cmd_eq]
  by_cases h7 : cmd % 256 &&& 0x80 = 0
  · simp only [h7, ne_eq, not_true_eq_false, if_false]
    exact send_packet_sends _ _ _ (hplain h7)
  · simp only [h7, ne_eq, not_false_eq_true, if_true]
    split_ifs
    · exact send_packet_sends _ _ _ (happ h7).1
    · exact (send_packet_sends _ _ _ (happ h7).1).comp (send_packet_sends _ _ _ (happ h7).2)

theorem wait_ready_sends {P : Nat × Nat → Prop} (cmd arg n : Nat) (s : Drive)
    (hplain : cmd % 256 &&& 0x80 = 0 → P (cmd % 256, arg))
    (happ : cmd % 256 &&& 0x80 ≠ 0 → P (CMD55, 0) ∧ P (cmd % 256 &&& 0x7F, arg)) :
    Sends P s (wait_ready cmd arg n s).2 := by
  induction n generalizing s with
  | zero => exact Sends.of_xmits rfl
  | succ n ih =>
    simp only [wait_ready]
    split_ifs
    · exact (send_cmd_sends cmd arg s hplain happ).comp (ih _)
    · exact send_cmd_sends cmd arg s hplain happ

theorem rcv_ocr_sends {P : Nat × Nat → Prop} (s : Drive) : Sends P s (rcv_ocr s).2 :=
  Sends.of_xmits (by simp [rcv_ocr, xmits])

theorem init_sd2_sends (K : DiskHeader) (s : Drive) :
    Sends (fun c => c ∈ initCommands) s (init_sd2 K s).2 := by
  have h1 : Sends (fun c => c ∈ initCommands) s (rcv_ocr s).2 := rcv_ocr_sends s
  have h2 := h1.comp (wait_ready_sends ACMD41 (1 <<< 30) 25000 (rcv_ocr s).2
    (fun h => absurd h (by decide)) (fun _ => ⟨by decide, by decide⟩))
  have h3 := h2.comp (send_cmd_sends CMD58 0
    (wait_ready ACMD41 (1 <<< 30) 25000 (rcv_ocr s).2).2
    (fun _ => by decide) (fun h => absurd rfl h))
  have h4 := h3.comp (rcv_ocr_sends
    (send_cmd CMD58 0 (wait_ready ACMD41 (1 <<< 30) 25000 (rcv_ocr s).2).2).2)
  unfold init_sd2
  dsimp only
  generalize wait_ready ACMD41 (1 <<< 30) 25000 (rcv_ocr s).2 = w at h2 h3 h4 ⊢
  split_ifs <;> first | exact h4 | exact h3 | exact h2 | exact h1

theorem init_sd1_mmc_sends (K : DiskHeader) (s : Drive) :
    Sends (fun c => c ∈ initCommands) s (init_sd1_mmc K s).2 := by
  have h1 : Sends (fun c => c ∈ initCommands) s (send_cmd ACMD41 0 s).2 :=
    send_cmd_sends ACMD41 0 s (fun h => absurd h (by decide)) (fun _ => ⟨by decide, by decide⟩)
  have hw : ∀ S : Drive, Sends (fun c => c ∈ initCommands) S
      (wait_ready (if (send_cmd ACMD41 0 s).1 ≤ 1 then ACMD41 else CMD1) 0 25000 S).2 := by
    intro S
    split_ifs
    · exact wait_ready_sends ACMD41 0 25000 S (fun h => absurd h (by decide))
        (fun _ => ⟨by decide, by decide⟩)
    · exact wait_ready_sends CMD1 0 25000 S (fun _ => by decide) (fun h => absurd rfl h)
  have h2 := h1.comp (hw (send_cmd ACMD41 0 s).2)
  have h3 := h2.comp (send_cmd_sends CMD16 512 (wait_ready
    (if (send_cmd ACMD41 0 s).1 ≤ 1 then ACMD41 else CMD1) 0 25000 (send_cmd ACMD41 0 s).2).2
    (fun _ => by decide) (fun h => absurd rfl h))
  unfold init_sd1_mmc
  dsimp only
  generalize wait_ready (if (send_cmd ACMD41 0 s).1 ≤ 1 then ACMD41 else CMD1) 0 25000
    (send_cmd ACMD41 0 s).2 = w at h2 h3 ⊢
  split_ifs <;> first | exact h3 | exact h2

/-- The detection sends CMD0 with argument 0 and then only commands of
`initCommands`. -/
theorem card_type_sends (K : DiskHeader) (s : Drive) :
    ∃ cs : List (Nat × Nat),
      xmits (card_type K s).2.trace = xmits s.trace ++ framesOf ((CMD0, 0) :: cs) ∧
      ∀ c ∈ cs, c ∈ initCommands := by
  have h0 : xmits (send_cmd CMD0 0 s).2.trace = xmits s.trace ++ frame CMD0 0 := by
    rw [send_cmd_plain CMD0 0 s (by decide), send_packet_xmits]; rfl
  have h8 : Sends (fun c => c ∈ initCommands) (send_cmd CMD0 0 s).2
      (send_cmd CMD8 0x1AA (send_cmd CMD0 0 s).2).2 :=
    send_cmd_sends CMD8 0x1AA _ (fun _ => by decide) (fun h => absurd rfl h)
  have key : ∀ S : Drive, Sends (fun c => c ∈ initCommands) (send_cmd CMD0 0 s).2 S →
      ∃ cs : List (Nat × Nat),
        xmits S.trace = xmits s.trace ++ framesOf ((CMD0, 0) :: cs) ∧
        ∀ c ∈ cs, c ∈ initCommands := by
    rintro S ⟨cs, e, hp⟩
    exact ⟨cs, by rw [e, h0, framesOf, List.append_assoc], hp⟩
  unfold card_type
  dsimp only
  split_ifs
  · exact key _ (h8.comp (init_sd2_sends K _))
  · exact key _ (h8.comp (init_sd1_mmc_sends K _))
  · exact key _ (Sends.of_xmits rfl)

/-! ## C12: the checksums -/

set_option maxRecDepth 100000 in
/-- C12. The bytes `disk_initialize` transmits are the packets of a list of
commands that starts with CMD0 with argument 0. Every packet of it whose first
byte is 0x40 is 0x40 0 0 0 0 0x95, every one whose first byte is 0x48 is
0x48 0 0 0x01 0xAA 0x87, and the sixth byte of each of these is the SD checksum
of its first five bytes: the CRC7 (generator x^7 + x^3 + 1, initial value 0)
shifted left by one, with bit 0 set. So CMD0 is only sent with argument 0 and
CMD8 only with argument 0x1AA. -/
theorem disk_initialize_checksums (K : DiskHeader) (s : Drive) :
    ∃ cs : List (Nat × Nat),
      xmits ( disk_initialize K s).2.trace = xmits s.trace ++ framesOf ((CMD0, 0) :: cs) ∧
      ∀ c ∈ (CMD0, 0) :: cs,
        ((frame c.1 c.2).head? = some 0x40 →
          c = (CMD0, 0) ∧ frame c.1 c.2 = [0x40, 0x00, 0x00, 0x00, 0x00, 0x95]) ∧
        ((frame c.1 c.2).head? = some 0x48 →
          c = (CMD8, 0x1AA) ∧ frame c.1 c.2 = [0x48, 0x00, 0x00, 0x01, 0xAA, 0x87]) ∧
        ((frame c.1 c.2).head? = some 0x40 ∨ (frame c.1 c.2).head? = some 0x48 →
          (frame c.1 c.2).getLast? = some (sdChecksum ((frame c.1 c.2).take 5))) := by
  have hall : ∀ c ∈ initCommands,
      ((frame c.1 c.2).head? = some 0x40 →
        c = (CMD0, 0) ∧ frame c.1 c.2 = [0x40, 0x00, 0x00, 0x00, 0x00, 0x95]) ∧
      ((frame c.1 c.2).head? = some 0x48 →
        c = (CMD8, 0x1AA) ∧ frame c.1 c.2 = [0x48, 0x00, 0x00, 0x01, 0xAA, 0x87]) ∧
      ((frame c.1 c.2).head? = some 0x40 ∨ (frame c.1 c.2).head? = some 0x48 →
        (frame c.1 c.2).getLast? = some (sdChecksum ((frame c.1 c.2).take 5))) := by
    decide
  obtain ⟨cs, e, hp⟩ := card_type_sends K (warm_up s)
  refine ⟨cs, ?_, ?_⟩
  · obtain ⟨-, -, h3⟩ := disk_initialize_of_card_type K s (card_type K (warm_up s)).2
      (card_type K (warm_up s)).1 Prod.mk.eta.symm
    rw [h3, xmits_append, e, warm_up_xmits]
    simp [xmits]
  · intro c hc
    rcases List.mem_cons.mp hc with h | h
    · exact hall c (by rw [h]; decide)
    · exact hall c (hp c h)

/-! ### The start of `disk_initialize` -/

theorem advance_zero (s : Drive) : advance s 0 [] = s := by
  cases s
  simp [advance]

theorem dummy_clocks_eq (n : Nat) (s : Drive) :
    dummy_clocks n s = advance s n (rcvs s 0 n) := by
  induction n generalizing s with
  | zero => exact (advance_zero s).symm
  | succ n ih =>
    rw [dummy_clocks, ih, rcv_spi_eq_advance, advance_advance, rcvs_advance, Nat.add_comm 1 n]
    rfl

theorem warm_up_eq (s : Drive) :
    warm_up s = dummy_clocks 600 (SELECT (dummy_clocks 10 (usi_enable s))) := rfl

theorem dummy_clocks_selected (n : Nat) (s : Drive) :
    (dummy_clocks n s).selected = s.selected := by
  rw [dummy_clocks_eq]; rfl

theorem warm_up_fields (s : Drive) :
    (warm_up s).trace = s.trace ++ rcvs s 0 10 ++ [BusEvent.select] ++ rcvs s 10 600 ∧
    (warm_up s).pos = s.pos + 610 ∧ (warm_up s).miso = s.miso := by
  rw [warm_up_eq, dummy_clocks_eq 10, dummy_clocks_eq 600]
  refine ⟨?_, rfl, rfl⟩
  have h := rcvs_of_pos s (SELECT (advance (usi_enable s) 10 (rcvs (usi_enable s) 0 10))) 10
    rfl rfl 0 600
  have h' := rcvs_of_pos s (usi_enable s) 0 rfl rfl 0 10
  simp only [Nat.add_zero, Nat.zero_add] at h h'
  rw [h]
  show (s.trace ++ rcvs (usi_enable s) 0 10 ++ [BusEvent.select]) ++ rcvs s 10 600 = _
  rw [h']

/-- The detection starts with the CMD0 packet. -/
theorem card_type_after_cmd0 (K : DiskHeader) (s : Drive) :
    Continues (send_cmd CMD0 0 s).2 (card_type K s).2 := by
  have h8 := send_cmd_continues CMD8 0x1AA (send_cmd CMD0 0 s).2
  unfold card_type
  dsimp only
  split_ifs
  · exact h8.trans (init_sd2_continues K _)
  · exact h8.trans (init_sd1_mmc_continues K _)
  · exact Continues.refl _

theorem rcvs_length (s : Drive) (i n : Nat) : (rcvs s i n).length = n := by
  induction n generalizing i with
  | zero => rfl
  | succ n ih => simp [rcvs, ih]

/-- The events of `disk_initialize` start with ten reads, the select, 600 reads
and the CMD0 packet. -/
theorem disk_initialize_begins (K : DiskHeader) (s : Drive) :
    ∃ k rest, 1 ≤ k ∧ k ≤ 10 ∧
      ( disk_initialize K s).2.trace =
        s.trace ++ rcvs s 0 10 ++ [BusEvent.select] ++ rcvs s 10 600 ++
          packetEvents s 610 CMD0 0 k ++ rest := by
  obtain ⟨ht, hp, hm⟩ := warm_up_fields s
  obtain ⟨-, -, h⟩ := send_cmd_events CMD0 0 (warm_up s)
  have h7 : ¬ (CMD0 % 256 &&& 0x80 ≠ 0) := by decide
  rcases h with ⟨-, k, hk1, hk2, hk, -⟩ | ⟨h, -⟩
  · obtain ⟨-, l, hl⟩ := card_type_after_cmd0 K (warm_up s)
    obtain ⟨-, -, h3⟩ := disk_initialize_of_card_type K s (card_type K (warm_up s)).2
      (card_type K (warm_up s)).1 Prod.mk.eta.symm
    refine ⟨k, l ++ [BusEvent.deselect, BusEvent.rcv
      ((card_type K (warm_up s)).2.miso (card_type K (warm_up s)).2.pos % 256)], hk1, hk2, ?_⟩
    rw [h3, hl, hk, ht, packetEvents_of_pos s (warm_up s) 610 hm hp 0]
    simp only [List.append_assoc, Nat.add_zero]
    rfl
  · exact absurd h h7

/-! ## C16: the warm up -/

/-- C16 fails as stated: `disk_initialize` does not deselect the card before
the first ten bytes. Entered with the select line asserted it exchanges them
with the card selected: the first eleven events are ten reads and the
select. -/
theorem warm_up_entered_selected :
    (driveOf []).selected = true ∧
    (∀ n, n ≤ 10 → (dummy_clocks n (usi_enable (driveOf []))).selected = true) ∧
    ( disk_initialize pff (driveOf [])).2.trace.take 11 =
      rcvs (driveOf []) 0 10 ++ [BusEvent.select] := by
  refine ⟨by decide, ?_, ?_⟩
  · intro n _
    rw [dummy_clocks_selected]; rfl
  · obtain ⟨k, rest, -, -, h⟩ := disk_initialize_begins pff (driveOf [])
    rw [h]
    have hl : (rcvs (driveOf []) 0 10 ++ [BusEvent.select]).length = 11 := by
      rw [List.length_append, rcvs_length]; rfl
    have e : (driveOf []).trace ++ rcvs (driveOf []) 0 10 ++ [BusEvent.select] ++
        rcvs (driveOf []) 10 600 ++ packetEvents (driveOf []) 610 CMD0 0 k ++ rest =
        (rcvs (driveOf []) 0 10 ++ [BusEvent.select]) ++
          (rcvs (driveOf []) 10 600 ++ packetEvents (driveOf []) 610 CMD0 0 k ++ rest) := by
      simp only [List.append_assoc]
      rfl
    rw [e]
    exact List.take_left' hl

/-- C16, amended. `disk_initialize` begins with ten byte exchanges during which
the select line is as it was on entry (so the card is deselected during them
when it was deselected on entry), then selects the card, then makes 600 more
byte exchanges with the card selected, and only then sends the CMD0 packet. -/
theorem disk_initialize_warm_up (K : DiskHeader) (s : Drive) :
    (∃ k rest, 1 ≤ k ∧ k ≤ 10 ∧
      ( disk_initialize K s).2.trace =
        s.trace ++ rcvs s 0 10 ++ [BusEvent.select] ++ rcvs s 10 600 ++
          packetEvents s 610 CMD0 0 k ++ rest) ∧
    rcvCount (rcvs s 0 10) = 10 ∧ rcvCount (rcvs s 10 600) = 600 ∧
    warm_up s = dummy_clocks 600 (SELECT (dummy_clocks 10 (usi_enable s))) ∧
    (∀ n, n ≤ 10 → (dummy_clocks n (usi_enable s)).selected = s.selected) ∧
    (s.selected = false → ∀ n, n ≤ 10 → (dummy_clocks n (usi_enable s)).selected = false) ∧
    (∀ n, n ≤ 600 →
      (dummy_clocks n (SELECT (dummy_clocks 10 (usi_enable s)))).selected = true) := by
  refine ⟨disk_initialize_begins K s, rcvCount_rcvs s 0 10, rcvCount_rcvs s 10 600, rfl,
    fun n _ => ?_, fun h n _ => ?_, fun n _ => ?_⟩
  · rw [dummy_clocks_selected]; rfl
  · rw [dummy_clocks_selected]; exact h
  · rw [dummy_clocks_selected]
    exact selected_of_PORTB _ _ rfl

/-- C16 (amended) entered after a release of the bus: the first ten bytes are
exchanged with the card deselected. -/
theorem disk_initialize_warm_up_witness :
    (release_spi (driveOf [])).selected = false ∧
    ∀ n, n ≤ 10 → (dummy_clocks n (usi_enable (release_spi (driveOf [])))).selected = false :=
  ⟨release_spi_selected _,
   (disk_initialize_warm_up pff (release_spi (driveOf []))).2.2.2.2.2.1
     (release_spi_selected _)⟩

/-! ### The idle-exit loops at their bound -/

theorem snd_pair {α β : Type} (a : α) (b : β) : (a, b).2 = b := rfl

/-- The SDv2 branch when the echo is right and the idle-exit loop ends with
`t = 0`: nothing follows the loop. -/
theorem init_sd2_timeout (K : DiskHeader) (s2 s3 : Drive) (e0 e1 : Nat)
    (hecho : rcv_ocr s2 = ((e0, e1, 0x01, 0xAA), s3))
    (hw : (wait_ready ACMD41 (1 <<< 30) 25000 s3).1 = 0) :
    init_sd2 K s2 = (0, (wait_ready ACMD41 (1 <<< 30) 25000 s3).2) := by
  unfold init_sd2
  rw [hecho]
  dsimp only
  generalize wait_ready ACMD41 (1 <<< 30) 25000 s3 = w at hw ⊢
  simp [hw]

/-- The SDv1 or MMC branch when the idle-exit loop ends with `t = 0`: nothing
follows the loop. -/
theorem init_sd1_mmc_timeout_state (K : DiskHeader) (s2 s3 : Drive) (p : Nat)
    (hp : send_cmd ACMD41 0 s2 = (p, s3))
    (hw : (wait_ready (if p ≤ 1 then ACMD41 else CMD1) 0 25000 s3).1 = 0) :
    init_sd1_mmc K s2 = (0, (wait_ready (if p ≤ 1 then ACMD41 else CMD1) 0 25000 s3).2) := by
  unfold init_sd1_mmc
  rw [hp]
  dsimp only
  rw [if_pos hw]

/-! ## C17: the bound of the idle-exit loops -/

/-- C17. An idle-exit loop of `disk_initialize` stops after the first poll
answered with 0 when that is one of the first 25000 (poll number 25000
included, which leaves `t = 1`), and after 25000 polls otherwise. When all 25000
polls are answered with a non-zero value, on the SDv2 branch and on the SDv1 or
MMC branch alike, the release of the bus follows poll number 25000 directly
(no further poll, no CMD58, no CMD16), `CardType` is 0 and the status is
`STA_NOINIT`. -/
theorem idle_exit_poll_bound (K : DiskHeader) (hK : K.WF) :
    (∀ cmd arg s k, k < 25000 → (∀ j, j < k → pollResp cmd arg j s ≠ 0) →
      pollResp cmd arg k s = 0 →
      wait_ready cmd arg 25000 s = (25000 - k, pollState cmd arg (k + 1) s) ∧
        25000 - k ≠ 0 ∧ (k = 24999 → (wait_ready cmd arg 25000 s).1 = 1)) ∧
    (∀ cmd arg s, (∀ j, j < 25000 → pollResp cmd arg j s ≠ 0) →
      wait_ready cmd arg 25000 s = (0, pollState cmd arg 25000 s)) ∧
    (∀ s s1 s2 s3 e0 e1,
      send_cmd CMD0 0 (warm_up s) = (1, s1) → send_cmd CMD8 0x1AA s1 = (1, s2) →
      rcv_ocr s2 = ((e0, e1, 0x01, 0xAA), s3) →
      (∀ j, j < 25000 → pollResp ACMD41 (1 <<< 30) j s3 ≠ 0) →
      ( disk_initialize K s).2.CardType = 0 ∧ ( disk_initialize K s).1 = K.STA_NOINIT ∧
      ∃ b, ( disk_initialize K s).2.trace =
        (pollState ACMD41 (1 <<< 30) 25000 s3).trace ++ [BusEvent.deselect, BusEvent.rcv b]) ∧
    (∀ s s1 s2 s3 r8 p,
      send_cmd CMD0 0 (warm_up s) = (1, s1) → send_cmd CMD8 0x1AA s1 = (r8, s2) → r8 ≠ 1 →
      send_cmd ACMD41 0 s2 = (p, s3) →
      (∀ j, j < 25000 → pollResp (if p ≤ 1 then ACMD41 else CMD1) 0 j s3 ≠ 0) →
      ( disk_initialize K s).2.CardType = 0 ∧ ( disk_initialize K s).1 = K.STA_NOINIT ∧
      ∃ b, ( disk_initialize K s).2.trace =
        (pollState (if p ≤ 1 then ACMD41 else CMD1) 0 25000 s3).trace ++
          [BusEvent.deselect, BusEvent.rcv b]) := by
  obtain ⟨hm, -⟩ := WF_STA_NOINIT hK
  refine ⟨?_, ?_, ?_, ?_⟩
  · intro cmd arg s k hk hidle hready
    have e := wait_ready_success cmd arg 25000 k s hk hidle hready
    refine ⟨e, by omega, fun h => ?_⟩
    rw [e, h]
  · intro cmd arg s hnone
    exact wait_ready_timeout cmd arg 25000 s hnone
  · intro s s1 s2 s3 e0 e1 h0 h8 hecho hnone
    have e := wait_ready_timeout ACMD41 (1 <<< 30) 25000 s3 hnone
    have hi := init_sd2_timeout K s2 s3 e0 e1 hecho (congrArg Prod.fst e)
    have hc : card_type K (warm_up s) = (0, (wait_ready ACMD41 (1 <<< 30) 25000 s3).2) := by
      simp only [card_type, h0, h8, hi, if_true]
    obtain ⟨c1, c2, c3⟩ := disk_initialize_of_card_type K s _ 0 hc
    have e2 := (congrArg Prod.snd e).trans (snd_pair _ _)
    rw [e2] at c3
    exact ⟨c1, by rw [c2, hm]; rfl, _, c3⟩
  · intro s s1 s2 s3 r8 p h0 h8 hr8 hp hnone
    have e := wait_ready_timeout (if p ≤ 1 then ACMD41 else CMD1) 0 25000 s3 hnone
    have hi := init_sd1_mmc_timeout_state K s2 s3 p hp (congrArg Prod.fst e)
    have hc : card_type K (warm_up s) =
        (0, (wait_ready (if p ≤ 1 then ACMD41 else CMD1) 0 25000 s3).2) := by
      simp only [card_type, h0, h8, hr8, hi, if_true, if_false]
    obtain ⟨c1, c2, c3⟩ := disk_initialize_of_card_type K s _ 0 hc
    have e2 := (congrArg Prod.snd e).trans (snd_pair _ _)
    rw [e2] at c3
    exact ⟨c1, by rw [c2, hm]; rfl, _, c3⟩

/-- C17 at a card that answers the first CMD1 with 0x01 and the second with
0x00: the loop stops after two polls with `t = 24999`. -/
theorem idle_exit_poll_bound_witness :
    wait_ready CMD1 0 25000 (driveOf [0xFF, 0xFF, 0x01, 0xFF, 0xFF, 0x00]) =
        (25000 - 1, pollState CMD1 0 (1 + 1) (driveOf [0xFF, 0xFF, 0x01, 0xFF, 0xFF, 0x00])) ∧
      25000 - 1 ≠ 0 :=
  ⟨((idle_exit_poll_bound pff (by decide)).1 CMD1 0
      (driveOf [0xFF, 0xFF, 0x01, 0xFF, 0xFF, 0x00]) 1 (by decide) (by decide) (by decide)).1,
   ((idle_exit_poll_bound pff (by decide)).1 CMD1 0
      (driveOf [0xFF, 0xFF, 0x01, 0xFF, 0xFF, 0x00]) 1 (by decide) (by decide) (by decide)).2.1⟩

/-! ## C19: the address wraps -/

theorem disk_readp_congr (K : DiskHeader) (dest lba lba' ofs cnt : Nat) (s : Drive)
    (h : readArg K s.CardType lba' = readArg K s.CardType lba) :
    disk_readp K dest lba' ofs cnt s = disk_readp K dest lba ofs cnt s := by
  rw [disk_readp_eq, disk_readp_eq, h]

/-- C19. For a `CardType` without `CT_BLOCK` and a 32 bit block number `lba` the
argument of the CMD17 packet of `disk_readp` is `(lba * 512) mod 2 ^ 32`. It is
`lba * 512` exactly when `lba < 2 ^ 23`; the nine high bits of `lba` do not
count, so block numbers that agree modulo `2 ^ 23` give the same call, for
example 8388608 and 0. -/
theorem disk_readp_wraps (K : DiskHeader) (dest lba ofs cnt : Nat) (s : Drive)
    (hb : s.CardType &&& K.CT_BLOCK = 0) (hl : lba < 2 ^ 32) :
    xmits ( disk_readp K dest lba ofs cnt s).2.trace =
      xmits s.trace ++
        [0x51, (lba * 512) % 2 ^ 32 / 2 ^ 24 % 256, (lba * 512) % 2 ^ 32 / 2 ^ 16 % 256,
          (lba * 512) % 2 ^ 32 / 2 ^ 8 % 256, (lba * 512) % 2 ^ 32 % 256, 0x01] ∧
    be32 ((lba * 512) % 2 ^ 32 / 2 ^ 24 % 256) ((lba * 512) % 2 ^ 32 / 2 ^ 16 % 256)
      ((lba * 512) % 2 ^ 32 / 2 ^ 8 % 256) ((lba * 512) % 2 ^ 32 % 256) = (lba * 512) % 2 ^ 32 ∧
    ((lba * 512) % 2 ^ 32 = lba * 512 ↔ lba < 2 ^ 23) ∧
    (lba * 512) % 2 ^ 32 = (lba % 2 ^ 23) * 512 ∧
    (∀ lba', lba' < 2 ^ 32 → lba' % 2 ^ 23 = lba % 2 ^ 23 →
      disk_readp K dest lba' ofs cnt s = disk_readp K dest lba ofs cnt s) ∧
    disk_readp K dest 8388608 ofs cnt s = disk_readp K dest 0 ofs cnt s := by
  have hr : ∀ x, readArg K s.CardType x = (x * 512) % 2 ^ 32 := by
    intro x; simp [readArg, hb]
  refine ⟨?_, ?_, ?_, ?_, ?_, ?_⟩
  · rw [disk_readp_xmits, hr, frame]
    simp only [Nat.shiftRight_eq_div_pow]
    rfl
  · have := be32_bytes ((lba * 512) % 2 ^ 32) (Nat.mod_lt _ (by decide))
    simp only [Nat.shiftRight_eq_div_pow] at this
    exact this
  · constructor
    · intro h; omega
    · intro h; omega
  · omega
  · intro lba' _ h
    apply disk_readp_congr
    rw [hr, hr]
    omega
  · apply disk_readp_congr
    rw [hr, hr]
    decide

/-- C19 at block number 8388608: the packet is the one of block 0. -/
theorem disk_readp_wraps_witness :
    xmits ( disk_readp pff 0 8388608 0 512 (driveOf [])).2.trace =
      [0x51, 0x00, 0x00, 0x00, 0x00, 0x01] ∧
    disk_readp pff 0 8388608 0 512 (driveOf []) = disk_readp pff 0 0 0 512 (driveOf []) :=
  ⟨(disk_readp_wraps pff 0 8388608 0 512 (driveOf []) (by decide) (by decide)).1,
   (disk_readp_wraps pff 0 8388608 0 512 (driveOf []) (by decide) (by decide)).2.2.2.2.2⟩

/-! ## C20: the range of the classification -/

theorem singleBit_and {a b : Nat} (ha : singleBit a) (hb : singleBit b) (hne : a ≠ b) :
    a &&& b = 0 := (singleBit_or ha hb hne).2.2.2.1

theorem init_sd2_valid (K : DiskHeader) (hK : K.WF) (s : Drive) :
    ValidType K (init_sd2 K s).1 := by
  obtain ⟨m2, -, m2b, -, -⟩ := WF_SD2 hK
  unfold init_sd2
  dsimp only
  generalize wait_ready ACMD41 (1 <<< 30) 25000 (rcv_ocr s).2 = w
  split_ifs <;>
    first
    | exact Or.inl rfl
    | exact Or.inr (Or.inr (Or.inr (Or.inr m2b)))
    | exact Or.inr (Or.inr (Or.inr (Or.inl m2)))

theorem init_sd1_mmc_valid (K : DiskHeader) (hK : K.WF) (s : Drive) :
    ValidType K (init_sd1_mmc K s).1 := by
  obtain ⟨hm, h1, -⟩ := hK
  unfold init_sd1_mmc
  dsimp only
  generalize wait_ready (if (send_cmd ACMD41 0 s).1 ≤ 1 then ACMD41 else CMD1) 0 25000
    (send_cmd ACMD41 0 s).2 = w
  split_ifs <;>
    first
    | exact Or.inl rfl
    | exact Or.inr (Or.inr (Or.inl (singleBit_byte h1).1))
    | exact Or.inr (Or.inl (singleBit_byte hm).1)

theorem card_type_valid (K : DiskHeader) (hK : K.WF) (s : Drive) :
    ValidType K (card_type K s).1 := by
  unfold card_type
  dsimp only
  split_ifs
  · exact init_sd2_valid K hK _
  · exact init_sd1_mmc_valid K hK _
  · exact Or.inl rfl

theorem disk_initialize_valid (K : DiskHeader) (hK : K.WF) (s : Drive) :
    ValidType K ( disk_initialize K s).2.CardType := by
  have h : ( disk_initialize K s).2.CardType = (card_type K (warm_up s)).1 := by
    simp only [ disk_initialize, release_spi_CardType]
  rw [h]
  exact card_type_valid K hK _

theorem disk_readp_CardType (K : DiskHeader) (dest lba ofs cnt : Nat) (s : Drive) :
    ( disk_readp K dest lba ofs cnt s).2.CardType = s.CardType := by
  rw [disk_readp_eq]
  split_ifs <;> simp

/-- C20. The value `disk_initialize` stores in `CardType` is one of the five
pairwise different values 0, `CT_MMC`, `CT_SD1`, `CT_SD2` and `CT_SD2 | CT_BLOCK`.
In such a value `CT_BLOCK` is set only together with `CT_SD2` and never with
`CT_MMC` or `CT_SD1`, and no two of `CT_MMC`, `CT_SD1`, `CT_SD2` are set
together. The same holds in every state reached from `CardType = 0` through
`disk_initialize` and `disk_readp`. -/
theorem classification_range (K : DiskHeader) (hK : K.WF) :
    (∀ s, ValidType K ( disk_initialize K s).2.CardType) ∧
    [0, K.CT_MMC, K.CT_SD1, K.CT_SD2, K.CT_SD2 ||| K.CT_BLOCK].Nodup ∧
    (∀ ct, ValidType K ct →
      (ct &&& K.CT_BLOCK ≠ 0 →
        ct &&& K.CT_SD2 ≠ 0 ∧ ct &&& K.CT_MMC = 0 ∧ ct &&& K.CT_SD1 = 0) ∧
      ¬ (ct &&& K.CT_MMC ≠ 0 ∧ ct &&& K.CT_SD1 ≠ 0) ∧
      ¬ (ct &&& K.CT_MMC ≠ 0 ∧ ct &&& K.CT_SD2 ≠ 0) ∧
      ¬ (ct &&& K.CT_SD1 ≠ 0 ∧ ct &&& K.CT_SD2 ≠ 0)) ∧
    (∀ s, Reachable K s → ValidType K s.CardType) := by
  have hK' := hK
  obtain ⟨bm, b1, b2, bb, mn1, mn2, mnb, n12, n1b, n2b, -, -⟩ := hK'
  have zm := (singleBit_byte bm).2
  have z1 := (singleBit_byte b1).2
  have z2 := (singleBit_byte b2).2
  have zb := (singleBit_byte bb).2
  have a_m1 := singleBit_and bm b1 mn1
  have a_m2 := singleBit_and bm b2 mn2
  have a_mb := singleBit_and bm bb mnb
  have a_12 := singleBit_and b1 b2 n12
  have a_1b := singleBit_and b1 bb n1b
  have a_2b := singleBit_and b2 bb n2b
  have a_1m : K.CT_SD1 &&& K.CT_MMC = 0 := by rw [Nat.and_comm]; exact a_m1
  have a_2m : K.CT_SD2 &&& K.CT_MMC = 0 := by rw [Nat.and_comm]; exact a_m2
  have a_bm : K.CT_BLOCK &&& K.CT_MMC = 0 := by rw [Nat.and_comm]; exact a_mb
  have a_21 : K.CT_SD2 &&& K.CT_SD1 = 0 := by rw [Nat.and_comm]; exact a_12
  have a_b1 : K.CT_BLOCK &&& K.CT_SD1 = 0 := by rw [Nat.and_comm]; exact a_1b
  have a_b2 : K.CT_BLOCK &&& K.CT_SD2 = 0 := by rw [Nat.and_comm]; exact a_2b
  obtain ⟨-, -, -, o0, o2⟩ := WF_SD2 hK
  refine ⟨disk_initialize_valid K hK, ?_, ?_, ?_⟩
  · simp only [List.nodup_cons, List.mem_cons, List.mem_singleton, List.not_mem_nil,
      List.nodup_nil, or_false, not_or, and_true]
    have om : K.CT_MMC ≠ K.CT_SD2 ||| K.CT_BLOCK := by
      intro h
      have := congrArg (fun x => x &&& K.CT_MMC) h
      simp only [Nat.and_self, Nat.and_distrib_right, a_2m, a_bm] at this
      exact zm this
    have o1 : K.CT_SD1 ≠ K.CT_SD2 ||| K.CT_BLOCK := by
      intro h
      have := congrArg (fun x => x &&& K.CT_SD1) h
      simp only [Nat.and_self, Nat.and_distrib_right, a_21, a_b1] at this
      exact z1 this
    exact ⟨⟨Ne.symm zm, Ne.symm z1, Ne.symm z2, Ne.symm o0⟩, ⟨mn1, mn2, om⟩, ⟨n12, o1⟩,
      Ne.symm o2, not_false⟩
  · intro ct hct
    rcases hct with h | h | h | h | h <;> subst h <;>
      simp only [Nat.zero_and, Nat.and_self, Nat.and_distrib_right, a_m1, a_m2, a_mb, a_12, a_1b,
        a_2b, a_1m, a_2m, a_bm, a_21, a_b1, a_b2, Nat.or_zero, Nat.zero_or, ne_eq,
        not_true_eq_false, not_false_eq_true, and_true, and_false, false_and, true_and,
        and_self, false_implies, implies_true, zm, z1, z2, zb]
  · intro s hs
    induction hs with
    | start s h => exact Or.inl h
    | init s _ _ => exact disk_initialize_valid K hK s
    | readp dest lba ofs cnt s _ ih => rw [disk_readp_CardType]; exact ih

/-- C20 with the flags of Petit FatFs, at the card of `sdhcStream`. -/
theorem classification_range_witness :
    ValidType pff ( disk_initialize pff (driveOf sdhcStream)).2.CardType ∧
    [0, pff.CT_MMC, pff.CT_SD1, pff.CT_SD2, pff.CT_SD2 ||| pff.CT_BLOCK].Nodup ∧
    ValidType pff ( disk_readp pff 0 10 0 512 ( disk_initialize pff (driveOf sdhcStream)).2).2.CardType :=
  ⟨(classification_range pff (by decide)).1 (driveOf sdhcStream),
   (classification_range pff (by decide)).2.1,
   (classification_range pff (by decide)).2.2.2 _
     (Reachable.readp 0 10 0 512 _ (Reachable.init _ (Reachable.start _ rfl)))⟩

end MMC
